import Mathlib

/-!
Shallow embedding of the recipe-app-api repository's recipe component:
the data model (User/Tag/Ingredient/Recipe with ownership), the
serialization layer (`app/recipe/serializers.py`) and the API layer
(`app/recipe/views.py`).  Users are identified by numeric ids; the
stored dataset is an explicit `DB` value threaded through every
operation.  Django/DRF primitives used by the source (queryset
filtering and ordering, `get_or_create`, many-to-many `add`/`clear`,
`get_object` 404 semantics, read-only field stripping) are embedded
with their documented semantics.
-/

/-- Modelled from the spec: `core.models.Tag` (not under src/):
`{id, name, owner_user}`. -/
structure Tag where
  id : Nat
  name : String
  user : Nat
deriving DecidableEq

/-- Modelled from the spec: `core.models.Ingredient` (not under src/):
`{id, name, owner_user}`. -/
structure Ingredient where
  id : Nat
  name : String
  user : Nat
deriving DecidableEq

/-- Modelled from the spec: `core.models.Recipe` (not under src/):
scalar fields plus owner and many-to-many tag/ingredient links
(stored here as lists of ids). `link` and `description` are optional
with model default `""`. -/
structure Recipe where
  id : Nat
  title : String
  time_minutes : Nat
  price : String
  link : String
  description : String
  user : Nat
  tags : List Nat
  ingredients : List Nat
deriving DecidableEq

/-- The stored dataset: one table per entity plus auto-increment
counters for primary keys. -/
structure DB where
  recipes : List Recipe
  tags : List Tag
  ingredients : List Ingredient
  nextRecipeId : Nat
  nextTagId : Nat
  nextIngredientId : Nat
deriving DecidableEq

/-- Django many-to-many `add`: set semantics, adding an already
related object is a no-op. -/
def m2mAdd (l : List Nat) (x : Nat) : List Nat :=
  if x ∈ l then l else l ++ [x]

/-- `Tag.objects.get_or_create(user=auth_user, name=n)`: return the
first stored tag matching both fields, or insert a fresh row with the
next id. -/
def tagGetOrCreate (db : DB) (u : Nat) (n : String) : Tag × DB :=
  match db.tags.find? (fun t => t.user == u && t.name == n) with
  | some t => (t, db)
  | none =>
      let t : Tag := ⟨db.nextTagId, n, u⟩
      (t, { db with tags := db.tags ++ [t], nextTagId := db.nextTagId + 1 })

/-- `Ingredient.objects.get_or_create(user=auth_user, name=n)`. -/
def ingredientGetOrCreate (db : DB) (u : Nat) (n : String) : Ingredient × DB :=
  match db.ingredients.find? (fun t => t.user == u && t.name == n) with
  | some t => (t, db)
  | none =>
      let t : Ingredient := ⟨db.nextIngredientId, n, u⟩
      (t, { db with ingredients := db.ingredients ++ [t],
                    nextIngredientId := db.nextIngredientId + 1 })

/-- A validated nested tag item: serializer fields are `[id, name]`
with `id` read-only, so only `name` survives validation. -/
structure TagPayload where
  name : String
deriving DecidableEq

/-- A validated nested ingredient item (same shape as tags). -/
structure IngredientPayload where
  name : String
deriving DecidableEq

/-- `RecipeSerializer._get_or_create_tags(tags, recipe)`: for each
nested item, get-or-create the tag under the authenticated user and
add it to the recipe's tag set. -/
def getOrCreateTags (db : DB) (u : Nat) : List TagPayload → Recipe → Recipe × DB
  | [], r => (r, db)
  | p :: ps, r =>
      let res := tagGetOrCreate db u p.name
      getOrCreateTags res.2 u ps { r with tags := m2mAdd r.tags res.1.id }

/-- `RecipeSerializer._get_or_create_ingredients(ingredients, recipe)`. -/
def getOrCreateIngredients (db : DB) (u : Nat) :
    List IngredientPayload → Recipe → Recipe × DB
  | [], r => (r, db)
  | p :: ps, r =>
      let res := ingredientGetOrCreate db u p.name
      getOrCreateIngredients res.2 u ps
        { r with ingredients := m2mAdd r.ingredients res.1.id }

/-- Validated data for a recipe create (detail serializer, not
partial): `title`, `time_minutes`, `price` are required, `link` and
`description` fall back to the model default `""`, and the nested
keys may be absent (`none`) or present. -/
structure RecipeCreateData where
  title : String
  time_minutes : Nat
  price : String
  link : Option String
  description : Option String
  tags : Option (List TagPayload)
  ingredients : Option (List IngredientPayload)
deriving DecidableEq

/-- Validated data for a recipe PATCH (partial update): every key may
be absent. -/
structure RecipeUpdateData where
  title : Option String
  time_minutes : Option Nat
  price : Option String
  link : Option String
  description : Option String
  tags : Option (List TagPayload)
  ingredients : Option (List IngredientPayload)
deriving DecidableEq

/-- `RecipeSerializer.create(validated_data)` with the owner injected
by `RecipeViewSet.perform_create` (`serializer.save(user=request.user)`):
pop `tags`/`ingredients` with default `[]`, insert the recipe row with
the scalar fields, then resolve the nested items via get-or-create
under the requesting user. -/
def recipeSerializerCreate (db : DB) (u : Nat) (vd : RecipeCreateData) :
    Recipe × DB :=
  let ts := vd.tags.getD []
  let ps := vd.ingredients.getD []
  let r : Recipe :=
    { id := db.nextRecipeId, title := vd.title,
      time_minutes := vd.time_minutes, price := vd.price,
      link := vd.link.getD "", description := vd.description.getD "",
      user := u, tags := [], ingredients := [] }
  let db1 : DB := { db with nextRecipeId := db.nextRecipeId + 1 }
  let s1 := getOrCreateTags db1 u ts r
  let s2 := getOrCreateIngredients s1.2 u ps s1.1
  (s2.1, { s2.2 with recipes := s2.2.recipes ++ [s2.1] })

/-- `instance.save()` on an update: replace the stored row with the
same primary key. -/
def saveRecipe (db : DB) (r : Recipe) : DB :=
  { db with recipes := db.recipes.map (fun x => if x.id == r.id then r else x) }

/-- `RecipeSerializer.update(instance, validated_data)`: pop
`tags`/`ingredients` with default `None`; when present clear the
association set and re-resolve it; then assign each supplied scalar
attribute and save. -/
def recipeSerializerUpdate (db : DB) (u : Nat) (inst : Recipe)
    (vd : RecipeUpdateData) : Recipe × DB :=
  let s1 : Recipe × DB :=
    match vd.tags with
    | some ts => getOrCreateTags db u ts { inst with tags := [] }
    | none => (inst, db)
  let s2 : Recipe × DB :=
    match vd.ingredients with
    | some ps => getOrCreateIngredients s1.2 u ps { s1.1 with ingredients := [] }
    | none => s1
  let r : Recipe :=
    { s2.1 with
      title := vd.title.getD s2.1.title,
      time_minutes := vd.time_minutes.getD s2.1.time_minutes,
      price := vd.price.getD s2.1.price,
      link := vd.link.getD s2.1.link,
      description := vd.description.getD s2.1.description }
  (r, saveRecipe s2.2 r)

/-- Ordering used by `RecipeViewSet.get_queryset`'s
`order_by('-id')`: descending primary key. -/
def recipeOrd (a b : Recipe) : Prop := b.id ≤ a.id

instance : DecidableRel recipeOrd := fun a b => Nat.decLe b.id a.id

instance : IsTotal Recipe recipeOrd := ⟨fun a b => Nat.le_total b.id a.id⟩

instance : IsTrans Recipe recipeOrd := ⟨fun _ _ _ h1 h2 => Nat.le_trans h2 h1⟩

/-- Ordering used by the tag/ingredient querysets'
`order_by('-name')`: reverse-alphabetical. -/
def tagOrd (a b : Tag) : Prop := b.name ≤ a.name

instance : DecidableRel tagOrd := fun a b => String.decidableLE b.name a.name

instance : IsTotal Tag tagOrd := ⟨fun a b => le_total b.name a.name⟩

instance : IsTrans Tag tagOrd := ⟨fun _ _ _ h1 h2 => le_trans h2 h1⟩

def ingredientOrd (a b : Ingredient) : Prop := b.name ≤ a.name

instance : DecidableRel ingredientOrd := fun a b => String.decidableLE b.name a.name

instance : IsTotal Ingredient ingredientOrd := ⟨fun a b => le_total b.name a.name⟩

instance : IsTrans Ingredient ingredientOrd := ⟨fun _ _ _ h1 h2 => le_trans h2 h1⟩

/-- `RecipeViewSet.get_queryset`:
`Recipe.objects.all().filter(user=request.user).order_by('-id')`. -/
def recipeGetQueryset (db : DB) (u : Nat) : List Recipe :=
  List.insertionSort recipeOrd (db.recipes.filter (fun r => r.user == u))

/-- `TagViewSet.get_queryset`: filter to the authenticated user,
reverse-alphabetical by name. -/
def tagGetQueryset (db : DB) (u : Nat) : List Tag :=
  List.insertionSort tagOrd (db.tags.filter (fun t => t.user == u))

/-- `IngredientViewSet.get_queryset`. -/
def ingredientGetQueryset (db : DB) (u : Nat) : List Ingredient :=
  List.insertionSort ingredientOrd (db.ingredients.filter (fun t => t.user == u))

/-- DRF `get_object`: look the primary key up inside the view's own
(filtered) queryset; `none` is an HTTP 404. -/
def recipeGetObject (db : DB) (u : Nat) (pk : Nat) : Option Recipe :=
  (recipeGetQueryset db u).find? (fun r => r.id == pk)

def tagGetObject (db : DB) (u : Nat) (pk : Nat) : Option Tag :=
  (tagGetQueryset db u).find? (fun t => t.id == pk)

def ingredientGetObject (db : DB) (u : Nat) (pk : Nat) : Option Ingredient :=
  (ingredientGetQueryset db u).find? (fun t => t.id == pk)

/-- `DELETE /recipes/{id}/` (DestroyModelMixin): 404 when
`get_object` misses, otherwise delete the row (many-to-many links are
detached with it; tags/ingredients themselves survive). -/
def recipeDestroy (db : DB) (u : Nat) (pk : Nat) : Option DB :=
  match recipeGetObject db u pk with
  | none => none
  | some r => some { db with recipes := db.recipes.filter (fun x => x.id != r.id) }

/-- `PATCH /recipes/{id}/`: 404 when `get_object` misses, otherwise
run the serializer update. -/
def recipeUpdateEndpoint (db : DB) (u : Nat) (pk : Nat)
    (vd : RecipeUpdateData) : Option (Recipe × DB) :=
  match recipeGetObject db u pk with
  | none => none
  | some inst => some (recipeSerializerUpdate db u inst vd)

/-- Validated data for a tag PATCH: fields `[id, name]` with `id`
read-only leave only `name`. -/
structure TagUpdateData where
  name : Option String
deriving DecidableEq

structure IngredientUpdateData where
  name : Option String
deriving DecidableEq

/-- Default `ModelSerializer.update` for `TagSerializer`: assign each
supplied writable field. -/
def tagSerializerUpdate (inst : Tag) (vd : TagUpdateData) : Tag :=
  { inst with name := vd.name.getD inst.name }

def ingredientSerializerUpdate (inst : Ingredient) (vd : IngredientUpdateData) :
    Ingredient :=
  { inst with name := vd.name.getD inst.name }

def saveTag (db : DB) (t : Tag) : DB :=
  { db with tags := db.tags.map (fun x => if x.id == t.id then t else x) }

def saveIngredient (db : DB) (t : Ingredient) : DB :=
  { db with ingredients := db.ingredients.map (fun x => if x.id == t.id then t else x) }

/-- `PATCH /tags/{id}/` (UpdateModelMixin on `TagViewSet`). -/
def tagUpdateEndpoint (db : DB) (u : Nat) (pk : Nat) (vd : TagUpdateData) :
    Option (Tag × DB) :=
  match tagGetObject db u pk with
  | none => none
  | some inst =>
      let t := tagSerializerUpdate inst vd
      some (t, saveTag db t)

/-- `DELETE /tags/{id}/` (DestroyModelMixin on `TagViewSet`). -/
def tagDestroy (db : DB) (u : Nat) (pk : Nat) : Option DB :=
  match tagGetObject db u pk with
  | none => none
  | some t => some { db with tags := db.tags.filter (fun x => x.id != t.id) }

def ingredientUpdateEndpoint (db : DB) (u : Nat) (pk : Nat)
    (vd : IngredientUpdateData) : Option (Ingredient × DB) :=
  match ingredientGetObject db u pk with
  | none => none
  | some inst =>
      let t := ingredientSerializerUpdate inst vd
      some (t, saveIngredient db t)

def ingredientDestroy (db : DB) (u : Nat) (pk : Nat) : Option DB :=
  match ingredientGetObject db u pk with
  | none => none
  | some t =>
      some { db with ingredients := db.ingredients.filter (fun x => x.id != t.id) }

/-- Wire representation of a nested tag: `{id, name}`. -/
structure TagRep where
  id : Nat
  name : String
deriving DecidableEq

structure IngredientRep where
  id : Nat
  name : String
deriving DecidableEq

/-- Detail representation produced by `RecipeDetailSerializer`
(summary fields plus `description`). -/
structure RecipeDetailRep where
  id : Nat
  title : String
  time_minutes : Nat
  price : String
  link : String
  description : String
  tags : List TagRep
  ingredients : List IngredientRep
deriving DecidableEq

/-- Serialize a recipe's tag links by resolving each stored id
against the tag table. -/
def recipeTagReps (table : List Tag) (tids : List Nat) : List TagRep :=
  tids.filterMap
    (fun tid => (table.find? (fun t => t.id == tid)).map
      (fun t => TagRep.mk t.id t.name))

def recipeIngredientReps (table : List Ingredient) (tids : List Nat) :
    List IngredientRep :=
  tids.filterMap
    (fun tid => (table.find? (fun t => t.id == tid)).map
      (fun t => IngredientRep.mk t.id t.name))

/-- `RecipeDetailSerializer.to_representation`: flat scalars pass
through, nested links become `{id, name}` sequences. -/
def serializeRecipeDetail (db : DB) (r : Recipe) : RecipeDetailRep :=
  { id := r.id, title := r.title, time_minutes := r.time_minutes,
    price := r.price, link := r.link, description := r.description,
    tags := recipeTagReps db.tags r.tags,
    ingredients := recipeIngredientReps db.ingredients r.ingredients }

/-- The DRF viewset actions. -/
inductive ViewAction where
  | list
  | retrieve
  | create
  | update
  | patchUpdate
  | destroy
deriving DecidableEq

/-- `RecipeViewSet` extends `viewsets.ModelViewSet`, which provides
all six actions. -/
def recipeViewSetActions : List ViewAction :=
  [.list, .retrieve, .create, .update, .patchUpdate, .destroy]

/-- `TagViewSet` mixes in only `DestroyModelMixin` (destroy),
`UpdateModelMixin` (update, partial update) and `ListModelMixin`
(list) over `GenericViewSet`; retrieve and create are not provided. -/
def tagViewSetActions : List ViewAction :=
  [.destroy, .update, .patchUpdate, .list]

/-- `IngredientViewSet` mixes in the same three mixins. -/
def ingredientViewSetActions : List ViewAction :=
  [.destroy, .update, .patchUpdate, .list]

/-- The two serializer shapes for recipes. -/
inductive SerializerKind where
  | summary
  | detail
deriving DecidableEq

/-- `RecipeViewSet.get_serializer_class`: the list action uses
`RecipeSerializer` (summary), every other action falls through to the
class default `RecipeDetailSerializer`. -/
def recipeSerializerClassFor (a : ViewAction) : SerializerKind :=
  if a = .list then .summary else .detail

/-- `RecipeSerializer.Meta.fields`. -/
def recipeSerializerFields : List String :=
  ["id", "title", "time_minutes", "price", "link", "tags", "ingredients"]

/-- `RecipeDetailSerializer.Meta.fields`: the summary fields plus
`description`. -/
def recipeDetailSerializerFields : List String :=
  recipeSerializerFields ++ ["description"]

/-- A raw nested tag item as sent on the wire: a client may also send
an `id`, which is read-only. -/
structure RawTagItem where
  id : Option Nat
  name : String
deriving DecidableEq

structure RawIngredientItem where
  id : Option Nat
  name : String
deriving DecidableEq

/-- A raw recipe payload as sent on the wire: it may carry the
read-only `id` and a `user` key (not among the serializer's declared
fields). -/
structure RawRecipePayload where
  id : Option Nat
  user : Option Nat
  title : Option String
  time_minutes : Option Nat
  price : Option String
  link : Option String
  description : Option String
  tags : Option (List RawTagItem)
  ingredients : Option (List RawIngredientItem)
deriving DecidableEq

/-- DRF validation of a nested tag item: `id` is in
`read_only_fields`, so it is dropped; only `name` survives. -/
def validateTagItem (raw : RawTagItem) : TagPayload :=
  { name := raw.name }

def validateIngredientItem (raw : RawIngredientItem) : IngredientPayload :=
  { name := raw.name }

/-- DRF validation for `POST /recipes/` (detail serializer, not
partial): required scalars must be present (else HTTP 400 = `none`);
the read-only `id` and the undeclared `user` key never reach
`validated_data`. -/
def validateRecipeCreate (raw : RawRecipePayload) : Option RecipeCreateData :=
  match raw.title, raw.time_minutes, raw.price with
  | some t, some m, some p =>
      some { title := t, time_minutes := m, price := p,
             link := raw.link, description := raw.description,
             tags := raw.tags.map (List.map validateTagItem),
             ingredients := raw.ingredients.map (List.map validateIngredientItem) }
  | _, _, _ => none

/-- DRF validation for `PATCH /recipes/{id}/` (partial): every
declared writable field is optional; `id` and `user` are dropped. -/
def validateRecipePatch (raw : RawRecipePayload) : RecipeUpdateData :=
  { title := raw.title, time_minutes := raw.time_minutes,
    price := raw.price, link := raw.link, description := raw.description,
    tags := raw.tags.map (List.map validateTagItem),
    ingredients := raw.ingredients.map (List.map validateIngredientItem) }

/-- A raw tag payload for the tag endpoints: clients may send `id`
or `user`; the serializer declares only `[id, name]` with `id`
read-only. -/
structure RawTagPayload where
  id : Option Nat
  user : Option Nat
  name : Option String
deriving DecidableEq

def validateTagPatch (raw : RawTagPayload) : TagUpdateData :=
  { name := raw.name }

structure RawIngredientPayload where
  id : Option Nat
  user : Option Nat
  name : Option String
deriving DecidableEq

def validateIngredientPatch (raw : RawIngredientPayload) : IngredientUpdateData :=
  { name := raw.name }

/-- Rows of a user/name pair in the tag table (for the get-or-create
duplication claims). -/
def countTag (db : DB) (u : Nat) (n : String) : Nat :=
  (db.tags.filter (fun t => t.user == u && t.name == n)).length

def countIngredient (db : DB) (u : Nat) (n : String) : Nat :=
  (db.ingredients.filter (fun t => t.user == u && t.name == n)).length

/-! ### Helper lemmas about the embedded operations -/

theorem m2mAdd_mem_self (l : List Nat) (x : Nat) : x ∈ m2mAdd l x := by
  unfold m2mAdd
  split
  · assumption
  · simp

theorem m2mAdd_mem_of (l : List Nat) (x y : Nat) (h : y ∈ l) : y ∈ m2mAdd l x := by
  unfold m2mAdd
  split
  · exact h
  · simp [h]

theorem m2mAdd_mem_iff (l : List Nat) (x y : Nat) :
    y ∈ m2mAdd l x ↔ y ∈ l ∨ y = x := by
  unfold m2mAdd
  split
  · rename_i hx
    constructor
    · exact Or.inl
    · rintro (h | rfl)
      · exact h
      · exact hx
  · simp

theorem tagGetOrCreate_user (db : DB) (u : Nat) (n : String) :
    (tagGetOrCreate db u n).1.user = u := by
  unfold tagGetOrCreate
  split
  · rename_i t ht
    have := List.find?_some ht
    simp only [Bool.and_eq_true, beq_iff_eq] at this
    exact this.1
  · rfl

theorem tagGetOrCreate_name (db : DB) (u : Nat) (n : String) :
    (tagGetOrCreate db u n).1.name = n := by
  unfold tagGetOrCreate
  split
  · rename_i t ht
    have := List.find?_some ht
    simp only [Bool.and_eq_true, beq_iff_eq] at this
    exact this.2
  · rfl

theorem tagGetOrCreate_mem (db : DB) (u : Nat) (n : String) :
    (tagGetOrCreate db u n).1 ∈ (tagGetOrCreate db u n).2.tags := by
  unfold tagGetOrCreate
  split
  · rename_i t ht
    exact List.mem_of_find?_eq_some ht
  · simp

theorem tagGetOrCreate_mono (db : DB) (u : Nat) (n : String) (x : Tag)
    (h : x ∈ db.tags) : x ∈ (tagGetOrCreate db u n).2.tags := by
  unfold tagGetOrCreate
  split
  · exact h
  · simp [h]

theorem tagGetOrCreate_recipes (db : DB) (u : Nat) (n : String) :
    (tagGetOrCreate db u n).2.recipes = db.recipes := by
  unfold tagGetOrCreate
  split <;> rfl

theorem tagGetOrCreate_ingredients (db : DB) (u : Nat) (n : String) :
    (tagGetOrCreate db u n).2.ingredients = db.ingredients := by
  unfold tagGetOrCreate
  split <;> rfl

theorem ingredientGetOrCreate_user (db : DB) (u : Nat) (n : String) :
    (ingredientGetOrCreate db u n).1.user = u := by
  unfold ingredientGetOrCreate
  split
  · rename_i t ht
    have := List.find?_some ht
    simp only [Bool.and_eq_true, beq_iff_eq] at this
    exact this.1
  · rfl

theorem ingredientGetOrCreate_name (db : DB) (u : Nat) (n : String) :
    (ingredientGetOrCreate db u n).1.name = n := by
  unfold ingredientGetOrCreate
  split
  · rename_i t ht
    have := List.find?_some ht
    simp only [Bool.and_eq_true, beq_iff_eq] at this
    exact this.2
  · rfl

theorem ingredientGetOrCreate_mem (db : DB) (u : Nat) (n : String) :
    (ingredientGetOrCreate db u n).1 ∈ (ingredientGetOrCreate db u n).2.ingredients := by
  unfold ingredientGetOrCreate
  split
  · rename_i t ht
    exact List.mem_of_find?_eq_some ht
  · simp

theorem ingredientGetOrCreate_mono (db : DB) (u : Nat) (n : String) (x : Ingredient)
    (h : x ∈ db.ingredients) : x ∈ (ingredientGetOrCreate db u n).2.ingredients := by
  unfold ingredientGetOrCreate
  split
  · exact h
  · simp [h]

theorem ingredientGetOrCreate_recipes (db : DB) (u : Nat) (n : String) :
    (ingredientGetOrCreate db u n).2.recipes = db.recipes := by
  unfold ingredientGetOrCreate
  split <;> rfl

theorem ingredientGetOrCreate_tags (db : DB) (u : Nat) (n : String) :
    (ingredientGetOrCreate db u n).2.tags = db.tags := by
  unfold ingredientGetOrCreate
  split <;> rfl

theorem getOrCreateTags_shape (u : Nat) (ts : List TagPayload) :
    ∀ (db : DB) (r : Recipe),
    (getOrCreateTags db u ts r).1 =
      { r with tags := (getOrCreateTags db u ts r).1.tags } := by
  induction ts with
  | nil => intro db r; rfl
  | cons p ps ih =>
      intro db r
      simp only [getOrCreateTags]
      exact ih _ _

theorem getOrCreateTags_db_recipes (u : Nat) (ts : List TagPayload) :
    ∀ (db : DB) (r : Recipe),
    (getOrCreateTags db u ts r).2.recipes = db.recipes := by
  induction ts with
  | nil => intro db r; rfl
  | cons p ps ih =>
      intro db r
      simp only [getOrCreateTags]
      rw [ih, tagGetOrCreate_recipes]

theorem getOrCreateTags_db_ingredients (u : Nat) (ts : List TagPayload) :
    ∀ (db : DB) (r : Recipe),
    (getOrCreateTags db u ts r).2.ingredients = db.ingredients := by
  induction ts with
  | nil => intro db r; rfl
  | cons p ps ih =>
      intro db r
      simp only [getOrCreateTags]
      rw [ih, tagGetOrCreate_ingredients]

theorem getOrCreateTags_db_mono (u : Nat) (ts : List TagPayload) :
    ∀ (db : DB) (r : Recipe) (x : Tag), x ∈ db.tags →
    x ∈ (getOrCreateTags db u ts r).2.tags := by
  induction ts with
  | nil => intro db r x h; exact h
  | cons p ps ih =>
      intro db r x h
      simp only [getOrCreateTags]
      exact ih _ _ x (tagGetOrCreate_mono db u p.name x h)

theorem getOrCreateTags_fst_mono (u : Nat) (ts : List TagPayload) :
    ∀ (db : DB) (r : Recipe) (tid : Nat), tid ∈ r.tags →
    tid ∈ (getOrCreateTags db u ts r).1.tags := by
  induction ts with
  | nil => intro db r tid h; exact h
  | cons p ps ih =>
      intro db r tid h
      simp only [getOrCreateTags]
      exact ih _ _ tid (m2mAdd_mem_of _ _ _ h)

theorem getOrCreateTags_sound (u : Nat) (ts : List TagPayload) :
    ∀ (db : DB) (r : Recipe) (tid : Nat),
    tid ∈ (getOrCreateTags db u ts r).1.tags →
    tid ∈ r.tags ∨
      ∃ t, t ∈ (getOrCreateTags db u ts r).2.tags ∧ t.id = tid ∧
        t.user = u ∧ ∃ p ∈ ts, t.name = p.name := by
  induction ts with
  | nil => intro db r tid h; exact Or.inl h
  | cons p ps ih =>
      intro db r tid h
      simp only [getOrCreateTags] at h ⊢
      rcases ih _ _ tid h with h1 | ⟨t, htm, hid, hu, q, hq, hn⟩
      · rcases (m2mAdd_mem_iff _ _ _).1 h1 with h2 | h2
        · exact Or.inl h2
        · refine Or.inr ⟨(tagGetOrCreate db u p.name).1,
            getOrCreateTags_db_mono u ps _ _ _ (tagGetOrCreate_mem db u p.name),
            h2.symm, tagGetOrCreate_user db u p.name,
            p, List.mem_cons_self p ps, tagGetOrCreate_name db u p.name⟩
      · exact Or.inr ⟨t, htm, hid, hu, q, List.mem_cons_of_mem p hq, hn⟩

theorem getOrCreateTags_complete (u : Nat) (ts : List TagPayload) :
    ∀ (db : DB) (r : Recipe) (p : TagPayload), p ∈ ts →
    ∃ t, t ∈ (getOrCreateTags db u ts r).2.tags ∧ t.user = u ∧
      t.name = p.name ∧ t.id ∈ (getOrCreateTags db u ts r).1.tags := by
  induction ts with
  | nil => intro db r p hp; cases hp
  | cons q qs ih =>
      intro db r p hp
      simp only [getOrCreateTags]
      rcases List.mem_cons.1 hp with rfl | hp'
      · refine ⟨(tagGetOrCreate db u p.name).1,
          getOrCreateTags_db_mono u qs _ _ _ (tagGetOrCreate_mem db u p.name),
          tagGetOrCreate_user db u p.name, tagGetOrCreate_name db u p.name,
          getOrCreateTags_fst_mono u qs _ _ _ (m2mAdd_mem_self _ _)⟩
      · exact ih _ _ p hp'

theorem getOrCreateIngredients_shape (u : Nat) (ps : List IngredientPayload) :
    ∀ (db : DB) (r : Recipe),
    (getOrCreateIngredients db u ps r).1 =
      { r with ingredients := (getOrCreateIngredients db u ps r).1.ingredients } := by
  induction ps with
  | nil => intro db r; rfl
  | cons p qs ih =>
      intro db r
      simp only [getOrCreateIngredients]
      exact ih _ _

theorem getOrCreateIngredients_db_recipes (u : Nat) (ps : List IngredientPayload) :
    ∀ (db : DB) (r : Recipe),
    (getOrCreateIngredients db u ps r).2.recipes = db.recipes := by
  induction ps with
  | nil => intro db r; rfl
  | cons p qs ih =>
      intro db r
      simp only [getOrCreateIngredients]
      rw [ih, ingredientGetOrCreate_recipes]

theorem getOrCreateIngredients_db_tags (u : Nat) (ps : List IngredientPayload) :
    ∀ (db : DB) (r : Recipe),
    (getOrCreateIngredients db u ps r).2.tags = db.tags := by
  induction ps with
  | nil => intro db r; rfl
  | cons p qs ih =>
      intro db r
      simp only [getOrCreateIngredients]
      rw [ih, ingredientGetOrCreate_tags]

theorem getOrCreateIngredients_db_mono (u : Nat) (ps : List IngredientPayload) :
    ∀ (db : DB) (r : Recipe) (x : Ingredient), x ∈ db.ingredients →
    x ∈ (getOrCreateIngredients db u ps r).2.ingredients := by
  induction ps with
  | nil => intro db r x h; exact h
  | cons p qs ih =>
      intro db r x h
      simp only [getOrCreateIngredients]
      exact ih _ _ x (ingredientGetOrCreate_mono db u p.name x h)

theorem getOrCreateIngredients_fst_mono (u : Nat) (ps : List IngredientPayload) :
    ∀ (db : DB) (r : Recipe) (tid : Nat), tid ∈ r.ingredients →
    tid ∈ (getOrCreateIngredients db u ps r).1.ingredients := by
  induction ps with
  | nil => intro db r tid h; exact h
  | cons p qs ih =>
      intro db r tid h
      simp only [getOrCreateIngredients]
      exact ih _ _ tid (m2mAdd_mem_of _ _ _ h)

theorem getOrCreateIngredients_sound (u : Nat) (ps : List IngredientPayload) :
    ∀ (db : DB) (r : Recipe) (tid : Nat),
    tid ∈ (getOrCreateIngredients db u ps r).1.ingredients →
    tid ∈ r.ingredients ∨
      ∃ t, t ∈ (getOrCreateIngredients db u ps r).2.ingredients ∧ t.id = tid ∧
        t.user = u ∧ ∃ p ∈ ps, t.name = p.name := by
  induction ps with
  | nil => intro db r tid h; exact Or.inl h
  | cons p qs ih =>
      intro db r tid h
      simp only [getOrCreateIngredients] at h ⊢
      rcases ih _ _ tid h with h1 | ⟨t, htm, hid, hu, q, hq, hn⟩
      · rcases (m2mAdd_mem_iff _ _ _).1 h1 with h2 | h2
        · exact Or.inl h2
        · refine Or.inr ⟨(ingredientGetOrCreate db u p.name).1,
            getOrCreateIngredients_db_mono u qs _ _ _ (ingredientGetOrCreate_mem db u p.name),
            h2.symm, ingredientGetOrCreate_user db u p.name,
            p, List.mem_cons_self p qs, ingredientGetOrCreate_name db u p.name⟩
      · exact Or.inr ⟨t, htm, hid, hu, q, List.mem_cons_of_mem p hq, hn⟩

theorem getOrCreateIngredients_complete (u : Nat) (ps : List IngredientPayload) :
    ∀ (db : DB) (r : Recipe) (p : IngredientPayload), p ∈ ps →
    ∃ t, t ∈ (getOrCreateIngredients db u ps r).2.ingredients ∧ t.user = u ∧
      t.name = p.name ∧ t.id ∈ (getOrCreateIngredients db u ps r).1.ingredients := by
  induction ps with
  | nil => intro db r p hp; cases hp
  | cons q qs ih =>
      intro db r p hp
      simp only [getOrCreateIngredients]
      rcases List.mem_cons.1 hp with rfl | hp'
      · refine ⟨(ingredientGetOrCreate db u p.name).1,
          getOrCreateIngredients_db_mono u qs _ _ _ (ingredientGetOrCreate_mem db u p.name),
          ingredientGetOrCreate_user db u p.name, ingredientGetOrCreate_name db u p.name,
          getOrCreateIngredients_fst_mono u qs _ _ _ (m2mAdd_mem_self _ _)⟩
      · exact ih _ _ p hp'

theorem countTag_eq_zero_iff_find (db : DB) (u : Nat) (n : String) :
    countTag db u n = 0 ↔
      db.tags.find? (fun t => t.user == u && t.name == n) = none := by
  unfold countTag
  rw [List.length_eq_zero, List.filter_eq_nil_iff, List.find?_eq_none]

theorem countIngredient_eq_zero_iff_find (db : DB) (u : Nat) (n : String) :
    countIngredient db u n = 0 ↔
      db.ingredients.find? (fun t => t.user == u && t.name == n) = none := by
  unfold countIngredient
  rw [List.length_eq_zero, List.filter_eq_nil_iff, List.find?_eq_none]

theorem getOrCreateTags_count_ge (u : Nat) (ts : List TagPayload) :
    ∀ (db : DB) (r : Recipe) (n : String), 1 ≤ countTag db u n →
    countTag (getOrCreateTags db u ts r).2 u n = countTag db u n := by
  induction ts with
  | nil => intro db r n _; rfl
  | cons p ps ih =>
      intro db r n h
      simp only [getOrCreateTags]
      cases hf : db.tags.find? (fun t => t.user == u && t.name == p.name) with
      | some t =>
          have h2 : tagGetOrCreate db u p.name = (t, db) := by
            unfold tagGetOrCreate; rw [hf]
          rw [h2]
          exact ih db _ n h
      | none =>
          have h2 : tagGetOrCreate db u p.name =
              (⟨db.nextTagId, p.name, u⟩,
               { db with tags := db.tags ++ [⟨db.nextTagId, p.name, u⟩],
                         nextTagId := db.nextTagId + 1 }) := by
            unfold tagGetOrCreate; rw [hf]
          rw [h2]
          have hne : p.name ≠ n := by
            intro he
            rw [he] at hf
            have h0 : countTag db u n = 0 := (countTag_eq_zero_iff_find db u n).2 hf
            omega
          have hcnt : countTag
              { db with tags := db.tags ++ [⟨db.nextTagId, p.name, u⟩],
                        nextTagId := db.nextTagId + 1 } u n = countTag db u n := by
            simp [countTag, List.filter_append, hne]
          rw [ih _ _ n (by rw [hcnt]; exact h)]
          exact hcnt

theorem getOrCreateTags_count_new (u : Nat) (ts : List TagPayload) :
    ∀ (db : DB) (r : Recipe) (n : String), countTag db u n = 0 →
    (∃ p ∈ ts, p.name = n) →
    countTag (getOrCreateTags db u ts r).2 u n = 1 := by
  induction ts with
  | nil =>
      intro db r n _ hex
      obtain ⟨p, hp, _⟩ := hex
      cases hp
  | cons p ps ih =>
      intro db r n h0 hex
      simp only [getOrCreateTags]
      by_cases he : p.name = n
      · have hf : db.tags.find? (fun t => t.user == u && t.name == p.name) = none := by
          rw [he]
          exact (countTag_eq_zero_iff_find db u n).1 h0
        have h2 : tagGetOrCreate db u p.name =
            (⟨db.nextTagId, p.name, u⟩,
             { db with tags := db.tags ++ [⟨db.nextTagId, p.name, u⟩],
                       nextTagId := db.nextTagId + 1 }) := by
          unfold tagGetOrCreate; rw [hf]
        rw [h2]
        have h1 : countTag
            { db with tags := db.tags ++ [⟨db.nextTagId, p.name, u⟩],
                      nextTagId := db.nextTagId + 1 } u n = 1 := by
          have h0' := h0
          unfold countTag at h0' ⊢
          simp [List.filter_append, he, h0']
        rw [getOrCreateTags_count_ge u ps _ _ n (by rw [h1])]
        exact h1
      · obtain ⟨q, hq, hqn⟩ := hex
        have hq' : q ∈ ps := by
          rcases List.mem_cons.1 hq with rfl | h
          · exact absurd hqn he
          · exact h
        cases hf : db.tags.find? (fun t => t.user == u && t.name == p.name) with
        | some t =>
            have h2 : tagGetOrCreate db u p.name = (t, db) := by
              unfold tagGetOrCreate; rw [hf]
            rw [h2]
            exact ih db _ n h0 ⟨q, hq', hqn⟩
        | none =>
            have h2 : tagGetOrCreate db u p.name =
                (⟨db.nextTagId, p.name, u⟩,
                 { db with tags := db.tags ++ [⟨db.nextTagId, p.name, u⟩],
                           nextTagId := db.nextTagId + 1 }) := by
              unfold tagGetOrCreate; rw [hf]
            rw [h2]
            have hcnt : countTag
                { db with tags := db.tags ++ [⟨db.nextTagId, p.name, u⟩],
                          nextTagId := db.nextTagId + 1 } u n = countTag db u n := by
              simp [countTag, List.filter_append, he]
            exact ih _ _ n (by rw [hcnt]; exact h0) ⟨q, hq', hqn⟩

theorem getOrCreateIngredients_count_ge (u : Nat) (ps : List IngredientPayload) :
    ∀ (db : DB) (r : Recipe) (n : String), 1 ≤ countIngredient db u n →
    countIngredient (getOrCreateIngredients db u ps r).2 u n = countIngredient db u n := by
  induction ps with
  | nil => intro db r n _; rfl
  | cons p qs ih =>
      intro db r n h
      simp only [getOrCreateIngredients]
      cases hf : db.ingredients.find? (fun t => t.user == u && t.name == p.name) with
      | some t =>
          have h2 : ingredientGetOrCreate db u p.name = (t, db) := by
            unfold ingredientGetOrCreate; rw [hf]
          rw [h2]
          exact ih db _ n h
      | none =>
          have h2 : ingredientGetOrCreate db u p.name =
              (⟨db.nextIngredientId, p.name, u⟩,
               { db with ingredients := db.ingredients ++ [⟨db.nextIngredientId, p.name, u⟩],
                         nextIngredientId := db.nextIngredientId + 1 }) := by
            unfold ingredientGetOrCreate; rw [hf]
          rw [h2]
          have hne : p.name ≠ n := by
            intro he
            rw [he] at hf
            have h0 : countIngredient db u n = 0 :=
              (countIngredient_eq_zero_iff_find db u n).2 hf
            omega
          have hcnt : countIngredient
              { db with ingredients := db.ingredients ++ [⟨db.nextIngredientId, p.name, u⟩],
                        nextIngredientId := db.nextIngredientId + 1 } u n
                = countIngredient db u n := by
            simp [countIngredient, List.filter_append, hne]
          rw [ih _ _ n (by rw [hcnt]; exact h)]
          exact hcnt

theorem getOrCreateIngredients_count_new (u : Nat) (ps : List IngredientPayload) :
    ∀ (db : DB) (r : Recipe) (n : String), countIngredient db u n = 0 →
    (∃ p ∈ ps, p.name = n) →
    countIngredient (getOrCreateIngredients db u ps r).2 u n = 1 := by
  induction ps with
  | nil =>
      intro db r n _ hex
      obtain ⟨p, hp, _⟩ := hex
      cases hp
  | cons p qs ih =>
      intro db r n h0 hex
      simp only [getOrCreateIngredients]
      by_cases he : p.name = n
      · have hf : db.ingredients.find? (fun t => t.user == u && t.name == p.name) = none := by
          rw [he]
          exact (countIngredient_eq_zero_iff_find db u n).1 h0
        have h2 : ingredientGetOrCreate db u p.name =
            (⟨db.nextIngredientId, p.name, u⟩,
             { db with ingredients := db.ingredients ++ [⟨db.nextIngredientId, p.name, u⟩],
                       nextIngredientId := db.nextIngredientId + 1 }) := by
          unfold ingredientGetOrCreate; rw [hf]
        rw [h2]
        have h1 : countIngredient
            { db with ingredients := db.ingredients ++ [⟨db.nextIngredientId, p.name, u⟩],
                      nextIngredientId := db.nextIngredientId + 1 } u n = 1 := by
          have h0' := h0
          unfold countIngredient at h0' ⊢
          simp [List.filter_append, he, h0']
        rw [getOrCreateIngredients_count_ge u qs _ _ n (by rw [h1])]
        exact h1
      · obtain ⟨q, hq, hqn⟩ := hex
        have hq' : q ∈ qs := by
          rcases List.mem_cons.1 hq with rfl | h
          · exact absurd hqn he
          · exact h
        cases hf : db.ingredients.find? (fun t => t.user == u && t.name == p.name) with
        | some t =>
            have h2 : ingredientGetOrCreate db u p.name = (t, db) := by
              unfold ingredientGetOrCreate; rw [hf]
            rw [h2]
            exact ih db _ n h0 ⟨q, hq', hqn⟩
        | none =>
            have h2 : ingredientGetOrCreate db u p.name =
                (⟨db.nextIngredientId, p.name, u⟩,
                 { db with ingredients := db.ingredients ++ [⟨db.nextIngredientId, p.name, u⟩],
                           nextIngredientId := db.nextIngredientId + 1 }) := by
              unfold ingredientGetOrCreate; rw [hf]
            rw [h2]
            have hcnt : countIngredient
                { db with ingredients := db.ingredients ++ [⟨db.nextIngredientId, p.name, u⟩],
                          nextIngredientId := db.nextIngredientId + 1 } u n
                  = countIngredient db u n := by
              simp [countIngredient, List.filter_append, he]
            exact ih _ _ n (by rw [hcnt]; exact h0) ⟨q, hq', hqn⟩

theorem countTag_tags_eq {db1 db2 : DB} (h : db1.tags = db2.tags) (u : Nat)
    (n : String) : countTag db1 u n = countTag db2 u n := by
  unfold countTag
  rw [h]

theorem countIngredient_eq {db1 db2 : DB} (h : db1.ingredients = db2.ingredients)
    (u : Nat) (n : String) : countIngredient db1 u n = countIngredient db2 u n := by
  unfold countIngredient
  rw [h]

theorem saveRecipe_tags (db : DB) (r : Recipe) : (saveRecipe db r).tags = db.tags := rfl

theorem saveRecipe_ingredients (db : DB) (r : Recipe) :
    (saveRecipe db r).ingredients = db.ingredients := rfl

theorem recipeSerializerCreate_countTag (db : DB) (u : Nat) (vd : RecipeCreateData)
    (n : String) (h : 1 ≤ countTag db u n) :
    countTag (recipeSerializerCreate db u vd).2 u n = countTag db u n := by
  have e1 : (recipeSerializerCreate db u vd).2.tags
      = (getOrCreateTags { db with nextRecipeId := db.nextRecipeId + 1 } u
          (vd.tags.getD [])
          { id := db.nextRecipeId, title := vd.title,
            time_minutes := vd.time_minutes, price := vd.price,
            link := vd.link.getD "", description := vd.description.getD "",
            user := u, tags := [], ingredients := [] }).2.tags := by
    simp only [recipeSerializerCreate]
    rw [getOrCreateIngredients_db_tags]
  rw [countTag_tags_eq e1 u n]
  exact getOrCreateTags_count_ge u _ _ _ n h

theorem recipeSerializerCreate_countIngredient (db : DB) (u : Nat)
    (vd : RecipeCreateData) (n : String) (h : 1 ≤ countIngredient db u n) :
    countIngredient (recipeSerializerCreate db u vd).2 u n = countIngredient db u n := by
  have e1 : (recipeSerializerCreate db u vd).2.ingredients
      = (getOrCreateIngredients
          (getOrCreateTags { db with nextRecipeId := db.nextRecipeId + 1 } u
            (vd.tags.getD [])
            { id := db.nextRecipeId, title := vd.title,
              time_minutes := vd.time_minutes, price := vd.price,
              link := vd.link.getD "", description := vd.description.getD "",
              user := u, tags := [], ingredients := [] }).2 u
          (vd.ingredients.getD [])
          (getOrCreateTags { db with nextRecipeId := db.nextRecipeId + 1 } u
            (vd.tags.getD [])
            { id := db.nextRecipeId, title := vd.title,
              time_minutes := vd.time_minutes, price := vd.price,
              link := vd.link.getD "", description := vd.description.getD "",
              user := u, tags := [], ingredients := [] }).1).2.ingredients := by
    simp only [recipeSerializerCreate]
  rw [countIngredient_eq e1 u n]
  rw [getOrCreateIngredients_count_ge u _ _ _ n]
  · exact countIngredient_eq (getOrCreateTags_db_ingredients u _ _ _) u n
  · rw [countIngredient_eq (getOrCreateTags_db_ingredients u _ _ _) u n]
    exact h

theorem countTag_saveRecipe (db : DB) (r : Recipe) (u : Nat) (n : String) :
    countTag (saveRecipe db r) u n = countTag db u n := rfl

theorem countIngredient_saveRecipe (db : DB) (r : Recipe) (u : Nat) (n : String) :
    countIngredient (saveRecipe db r) u n = countIngredient db u n := rfl

theorem recipeSerializerUpdate_countTag (db : DB) (u : Nat) (inst : Recipe)
    (vd : RecipeUpdateData) (n : String) (h : 1 ≤ countTag db u n) :
    countTag (recipeSerializerUpdate db u inst vd).2 u n = countTag db u n := by
  unfold recipeSerializerUpdate
  rcases ht : vd.tags with _ | ts <;> rcases hi : vd.ingredients with _ | ps <;>
    simp only [ht, hi] <;> rw [countTag_saveRecipe]
  · exact countTag_tags_eq (getOrCreateIngredients_db_tags u ps _ _) u n
  · exact getOrCreateTags_count_ge u ts _ _ n h
  · rw [countTag_tags_eq (getOrCreateIngredients_db_tags u ps _ _) u n]
    exact getOrCreateTags_count_ge u ts _ _ n h

theorem recipeSerializerUpdate_countIngredient (db : DB) (u : Nat) (inst : Recipe)
    (vd : RecipeUpdateData) (n : String) (h : 1 ≤ countIngredient db u n) :
    countIngredient (recipeSerializerUpdate db u inst vd).2 u n = countIngredient db u n := by
  unfold recipeSerializerUpdate
  rcases ht : vd.tags with _ | ts <;> rcases hi : vd.ingredients with _ | ps <;>
    simp only [ht, hi] <;> rw [countIngredient_saveRecipe]
  · exact getOrCreateIngredients_count_ge u ps _ _ n h
  · exact countIngredient_eq (getOrCreateTags_db_ingredients u ts _ _) u n
  · rw [getOrCreateIngredients_count_ge u ps _ _ n]
    · exact countIngredient_eq (getOrCreateTags_db_ingredients u ts _ _) u n
    · rw [countIngredient_eq (getOrCreateTags_db_ingredients u ts _ _) u n]
      exact h

theorem mem_recipeGetQueryset (db : DB) (u : Nat) (r : Recipe) :
    r ∈ recipeGetQueryset db u ↔ r ∈ db.recipes ∧ r.user = u := by
  unfold recipeGetQueryset
  rw [(List.perm_insertionSort recipeOrd _).mem_iff, List.mem_filter]
  simp

theorem mem_tagGetQueryset (db : DB) (u : Nat) (t : Tag) :
    t ∈ tagGetQueryset db u ↔ t ∈ db.tags ∧ t.user = u := by
  unfold tagGetQueryset
  rw [(List.perm_insertionSort tagOrd _).mem_iff, List.mem_filter]
  simp

theorem mem_ingredientGetQueryset (db : DB) (u : Nat) (t : Ingredient) :
    t ∈ ingredientGetQueryset db u ↔ t ∈ db.ingredients ∧ t.user = u := by
  unfold ingredientGetQueryset
  rw [(List.perm_insertionSort ingredientOrd _).mem_iff, List.mem_filter]
  simp

theorem find_key_of_nodup {α : Type} (f : α → Nat) :
    ∀ (l : List α), (l.map f).Nodup → ∀ x, x ∈ l →
    l.find? (fun y => f y == f x) = some x := by
  intro l
  induction l with
  | nil => intro _ x hx; cases hx
  | cons a as ih =>
      intro hn x hx
      have hn' := hn
      rw [List.map_cons, List.nodup_cons] at hn'
      cases hfa : (f a == f x) with
      | true =>
          have hax : f a = f x := beq_iff_eq.1 hfa
          have hxa : x = a := by
            rcases List.mem_cons.1 hx with rfl | hmem
            · rfl
            · exact absurd (by rw [hax]; exact List.mem_map_of_mem f hmem) hn'.1
          subst hxa
          simp [List.find?, hfa]
      | false =>
          have hxmem : x ∈ as := by
            rcases List.mem_cons.1 hx with rfl | hmem
            · simp at hfa
            · exact hmem
          have hrec := ih hn'.2 x hxmem
          simp [List.find?, hfa, hrec]

theorem recipeQueryset_map_id_nodup (db : DB) (u : Nat)
    (h : (db.recipes.map Recipe.id).Nodup) :
    ((recipeGetQueryset db u).map Recipe.id).Nodup := by
  unfold recipeGetQueryset
  have hsub : List.Sublist (db.recipes.filter (fun r => r.user == u)) db.recipes :=
    List.filter_sublist _
  have h1 : ((db.recipes.filter (fun r => r.user == u)).map Recipe.id).Nodup :=
    List.Nodup.sublist (hsub.map Recipe.id) h
  exact ((List.perm_insertionSort recipeOrd _).map Recipe.id).nodup_iff.2 h1

theorem tagQueryset_map_id_nodup (db : DB) (u : Nat)
    (h : (db.tags.map Tag.id).Nodup) :
    ((tagGetQueryset db u).map Tag.id).Nodup := by
  unfold tagGetQueryset
  have hsub : List.Sublist (db.tags.filter (fun t => t.user == u)) db.tags :=
    List.filter_sublist _
  have h1 : ((db.tags.filter (fun t => t.user == u)).map Tag.id).Nodup :=
    List.Nodup.sublist (hsub.map Tag.id) h
  exact ((List.perm_insertionSort tagOrd _).map Tag.id).nodup_iff.2 h1

theorem ingredientQueryset_map_id_nodup (db : DB) (u : Nat)
    (h : (db.ingredients.map Ingredient.id).Nodup) :
    ((ingredientGetQueryset db u).map Ingredient.id).Nodup := by
  unfold ingredientGetQueryset
  have hsub : List.Sublist (db.ingredients.filter (fun t => t.user == u)) db.ingredients :=
    List.filter_sublist _
  have h1 : ((db.ingredients.filter (fun t => t.user == u)).map Ingredient.id).Nodup :=
    List.Nodup.sublist (hsub.map Ingredient.id) h
  exact ((List.perm_insertionSort ingredientOrd _).map Ingredient.id).nodup_iff.2 h1

theorem getOrCreateTags_fst_title (db : DB) (u : Nat) (ts : List TagPayload)
    (r : Recipe) : (getOrCreateTags db u ts r).1.title = r.title := by
  rw [getOrCreateTags_shape]

theorem getOrCreateTags_fst_time (db : DB) (u : Nat) (ts : List TagPayload)
    (r : Recipe) : (getOrCreateTags db u ts r).1.time_minutes = r.time_minutes := by
  rw [getOrCreateTags_shape]

theorem getOrCreateTags_fst_price (db : DB) (u : Nat) (ts : List TagPayload)
    (r : Recipe) : (getOrCreateTags db u ts r).1.price = r.price := by
  rw [getOrCreateTags_shape]

theorem getOrCreateTags_fst_link (db : DB) (u : Nat) (ts : List TagPayload)
    (r : Recipe) : (getOrCreateTags db u ts r).1.link = r.link := by
  rw [getOrCreateTags_shape]

theorem getOrCreateTags_fst_descr (db : DB) (u : Nat) (ts : List TagPayload)
    (r : Recipe) : (getOrCreateTags db u ts r).1.description = r.description := by
  rw [getOrCreateTags_shape]

theorem getOrCreateTags_fst_user (db : DB) (u : Nat) (ts : List TagPayload)
    (r : Recipe) : (getOrCreateTags db u ts r).1.user = r.user := by
  rw [getOrCreateTags_shape]

theorem getOrCreateTags_fst_id (db : DB) (u : Nat) (ts : List TagPayload)
    (r : Recipe) : (getOrCreateTags db u ts r).1.id = r.id := by
  rw [getOrCreateTags_shape]

theorem getOrCreateTags_fst_ingredients (db : DB) (u : Nat) (ts : List TagPayload)
    (r : Recipe) : (getOrCreateTags db u ts r).1.ingredients = r.ingredients := by
  rw [getOrCreateTags_shape]

theorem getOrCreateIngredients_fst_title (db : DB) (u : Nat)
    (ps : List IngredientPayload) (r : Recipe) :
    (getOrCreateIngredients db u ps r).1.title = r.title := by
  rw [getOrCreateIngredients_shape]

theorem getOrCreateIngredients_fst_time (db : DB) (u : Nat)
    (ps : List IngredientPayload) (r : Recipe) :
    (getOrCreateIngredients db u ps r).1.time_minutes = r.time_minutes := by
  rw [getOrCreateIngredients_shape]

theorem getOrCreateIngredients_fst_price (db : DB) (u : Nat)
    (ps : List IngredientPayload) (r : Recipe) :
    (getOrCreateIngredients db u ps r).1.price = r.price := by
  rw [getOrCreateIngredients_shape]

theorem getOrCreateIngredients_fst_link (db : DB) (u : Nat)
    (ps : List IngredientPayload) (r : Recipe) :
    (getOrCreateIngredients db u ps r).1.link = r.link := by
  rw [getOrCreateIngredients_shape]

theorem getOrCreateIngredients_fst_descr (db : DB) (u : Nat)
    (ps : List IngredientPayload) (r : Recipe) :
    (getOrCreateIngredients db u ps r).1.description = r.description := by
  rw [getOrCreateIngredients_shape]

theorem getOrCreateIngredients_fst_user (db : DB) (u : Nat)
    (ps : List IngredientPayload) (r : Recipe) :
    (getOrCreateIngredients db u ps r).1.user = r.user := by
  rw [getOrCreateIngredients_shape]

theorem getOrCreateIngredients_fst_id (db : DB) (u : Nat)
    (ps : List IngredientPayload) (r : Recipe) :
    (getOrCreateIngredients db u ps r).1.id = r.id := by
  rw [getOrCreateIngredients_shape]

theorem getOrCreateIngredients_fst_tags (db : DB) (u : Nat)
    (ps : List IngredientPayload) (r : Recipe) :
    (getOrCreateIngredients db u ps r).1.tags = r.tags := by
  rw [getOrCreateIngredients_shape]

/-- Well-formedness of the tag table: ids are below the counter and
pairwise distinct (as the ORM's auto-increment primary key grants). -/
def TagsWF (db : DB) : Prop :=
  (∀ t ∈ db.tags, t.id < db.nextTagId) ∧ (db.tags.map Tag.id).Nodup

def IngredientsWF (db : DB) : Prop :=
  (∀ t ∈ db.ingredients, t.id < db.nextIngredientId) ∧
    (db.ingredients.map Ingredient.id).Nodup

instance (db : DB) : Decidable (TagsWF db) := by
  unfold TagsWF
  infer_instance

instance (db : DB) : Decidable (IngredientsWF db) := by
  unfold IngredientsWF
  infer_instance

theorem tagGetOrCreate_wf (db : DB) (u : Nat) (n : String) (h : TagsWF db) :
    TagsWF (tagGetOrCreate db u n).2 := by
  unfold tagGetOrCreate
  cases hf : db.tags.find? (fun t => t.user == u && t.name == n) with
  | some t => exact h
  | none =>
      constructor
      · intro t ht
        rcases List.mem_append.1 ht with h1 | h1
        · exact Nat.lt_succ_of_lt (h.1 t h1)
        · rcases List.mem_singleton.1 h1 with rfl
          exact Nat.lt_succ_self _
      · rw [List.map_append, List.nodup_append]
        refine ⟨h.2, List.nodup_singleton _, ?_⟩
        intro a ha hb
        rcases List.mem_singleton.1 hb with rfl
        rcases List.mem_map.1 ha with ⟨t, htm, hid⟩
        have h3 := h.1 t htm
        have h4 : Tag.id ⟨db.nextTagId, n, u⟩ = db.nextTagId := rfl
        omega

theorem ingredientGetOrCreate_wf (db : DB) (u : Nat) (n : String)
    (h : IngredientsWF db) : IngredientsWF (ingredientGetOrCreate db u n).2 := by
  unfold ingredientGetOrCreate
  cases hf : db.ingredients.find? (fun t => t.user == u && t.name == n) with
  | some t => exact h
  | none =>
      constructor
      · intro t ht
        rcases List.mem_append.1 ht with h1 | h1
        · exact Nat.lt_succ_of_lt (h.1 t h1)
        · rcases List.mem_singleton.1 h1 with rfl
          exact Nat.lt_succ_self _
      · rw [List.map_append, List.nodup_append]
        refine ⟨h.2, List.nodup_singleton _, ?_⟩
        intro a ha hb
        rcases List.mem_singleton.1 hb with rfl
        rcases List.mem_map.1 ha with ⟨t, htm, hid⟩
        have h3 := h.1 t htm
        have h4 : Ingredient.id ⟨db.nextIngredientId, n, u⟩ = db.nextIngredientId := rfl
        omega

theorem tagGetOrCreate_ing_wf (db : DB) (u : Nat) (n : String)
    (h : IngredientsWF db) : IngredientsWF (tagGetOrCreate db u n).2 := by
  unfold tagGetOrCreate
  cases hf : db.tags.find? (fun t => t.user == u && t.name == n) with
  | some t => exact h
  | none => exact h

theorem ingredientGetOrCreate_tag_wf (db : DB) (u : Nat) (n : String)
    (h : TagsWF db) : TagsWF (ingredientGetOrCreate db u n).2 := by
  unfold ingredientGetOrCreate
  cases hf : db.ingredients.find? (fun t => t.user == u && t.name == n) with
  | some t => exact h
  | none => exact h

theorem getOrCreateTags_wf (u : Nat) (ts : List TagPayload) :
    ∀ (db : DB) (r : Recipe), TagsWF db → TagsWF (getOrCreateTags db u ts r).2 := by
  induction ts with
  | nil => intro db r h; exact h
  | cons p ps ih =>
      intro db r h
      simp only [getOrCreateTags]
      exact ih _ _ (tagGetOrCreate_wf db u p.name h)

theorem getOrCreateIngredients_wf (u : Nat) (ps : List IngredientPayload) :
    ∀ (db : DB) (r : Recipe), IngredientsWF db →
    IngredientsWF (getOrCreateIngredients db u ps r).2 := by
  induction ps with
  | nil => intro db r h; exact h
  | cons p qs ih =>
      intro db r h
      simp only [getOrCreateIngredients]
      exact ih _ _ (ingredientGetOrCreate_wf db u p.name h)

theorem getOrCreateTags_ing_wf (u : Nat) (ts : List TagPayload) :
    ∀ (db : DB) (r : Recipe), IngredientsWF db →
    IngredientsWF (getOrCreateTags db u ts r).2 := by
  induction ts with
  | nil => intro db r h; exact h
  | cons p ps ih =>
      intro db r h
      simp only [getOrCreateTags]
      exact ih _ _ (tagGetOrCreate_ing_wf db u p.name h)

theorem getOrCreateIngredients_tag_wf (u : Nat) (ps : List IngredientPayload) :
    ∀ (db : DB) (r : Recipe), TagsWF db →
    TagsWF (getOrCreateIngredients db u ps r).2 := by
  induction ps with
  | nil => intro db r h; exact h
  | cons p qs ih =>
      intro db r h
      simp only [getOrCreateIngredients]
      exact ih _ _ (ingredientGetOrCreate_tag_wf db u p.name h)

theorem recipeGetObject_some (db : DB) (u : Nat) (pk : Nat) (r : Recipe)
    (h : recipeGetObject db u pk = some r) :
    r ∈ db.recipes ∧ r.user = u ∧ r.id = pk := by
  unfold recipeGetObject at h
  have h1 := List.mem_of_find?_eq_some h
  have h2 := List.find?_some h
  rw [mem_recipeGetQueryset] at h1
  exact ⟨h1.1, h1.2, beq_iff_eq.1 h2⟩

theorem tagGetObject_some (db : DB) (u : Nat) (pk : Nat) (t : Tag)
    (h : tagGetObject db u pk = some t) :
    t ∈ db.tags ∧ t.user = u ∧ t.id = pk := by
  unfold tagGetObject at h
  have h1 := List.mem_of_find?_eq_some h
  have h2 := List.find?_some h
  rw [mem_tagGetQueryset] at h1
  exact ⟨h1.1, h1.2, beq_iff_eq.1 h2⟩

theorem ingredientGetObject_some (db : DB) (u : Nat) (pk : Nat) (t : Ingredient)
    (h : ingredientGetObject db u pk = some t) :
    t ∈ db.ingredients ∧ t.user = u ∧ t.id = pk := by
  unfold ingredientGetObject at h
  have h1 := List.mem_of_find?_eq_some h
  have h2 := List.find?_some h
  rw [mem_ingredientGetQueryset] at h1
  exact ⟨h1.1, h1.2, beq_iff_eq.1 h2⟩

theorem recipeGetObject_owner (db : DB) (r : Recipe)
    (hn : (db.recipes.map Recipe.id).Nodup) (hr : r ∈ db.recipes) :
    recipeGetObject db r.user r.id = some r := by
  unfold recipeGetObject
  exact find_key_of_nodup Recipe.id _ (recipeQueryset_map_id_nodup db r.user hn) r
    ((mem_recipeGetQueryset db r.user r).2 ⟨hr, rfl⟩)

theorem tagGetObject_owner (db : DB) (t : Tag)
    (hn : (db.tags.map Tag.id).Nodup) (ht : t ∈ db.tags) :
    tagGetObject db t.user t.id = some t := by
  unfold tagGetObject
  exact find_key_of_nodup Tag.id _ (tagQueryset_map_id_nodup db t.user hn) t
    ((mem_tagGetQueryset db t.user t).2 ⟨ht, rfl⟩)

theorem ingredientGetObject_owner (db : DB) (t : Ingredient)
    (hn : (db.ingredients.map Ingredient.id).Nodup) (ht : t ∈ db.ingredients) :
    ingredientGetObject db t.user t.id = some t := by
  unfold ingredientGetObject
  exact find_key_of_nodup Ingredient.id _
    (ingredientQueryset_map_id_nodup db t.user hn) t
    ((mem_ingredientGetQueryset db t.user t).2 ⟨ht, rfl⟩)

theorem recipeGetObject_none_of_other (db : DB) (u2 : Nat) (r : Recipe)
    (hn : (db.recipes.map Recipe.id).Nodup) (hr : r ∈ db.recipes)
    (hne : r.user ≠ u2) : recipeGetObject db u2 r.id = none := by
  unfold recipeGetObject
  rw [List.find?_eq_none]
  intro x hxq hbeq
  rw [mem_recipeGetQueryset] at hxq
  have hxid : x.id = r.id := beq_iff_eq.1 hbeq
  have hxr : x = r := List.inj_on_of_nodup_map hn hxq.1 hr hxid
  exact hne (hxr ▸ hxq.2)

theorem tagGetObject_none_of_other (db : DB) (u2 : Nat) (t : Tag)
    (hn : (db.tags.map Tag.id).Nodup) (ht : t ∈ db.tags)
    (hne : t.user ≠ u2) : tagGetObject db u2 t.id = none := by
  unfold tagGetObject
  rw [List.find?_eq_none]
  intro x hxq hbeq
  rw [mem_tagGetQueryset] at hxq
  have hxid : x.id = t.id := beq_iff_eq.1 hbeq
  have hxt : x = t := List.inj_on_of_nodup_map hn hxq.1 ht hxid
  exact hne (hxt ▸ hxq.2)

theorem ingredientGetObject_none_of_other (db : DB) (u2 : Nat) (t : Ingredient)
    (hn : (db.ingredients.map Ingredient.id).Nodup) (ht : t ∈ db.ingredients)
    (hne : t.user ≠ u2) : ingredientGetObject db u2 t.id = none := by
  unfold ingredientGetObject
  rw [List.find?_eq_none]
  intro x hxq hbeq
  rw [mem_ingredientGetQueryset] at hxq
  have hxid : x.id = t.id := beq_iff_eq.1 hbeq
  have hxt : x = t := List.inj_on_of_nodup_map hn hxq.1 ht hxid
  exact hne (hxt ▸ hxq.2)

theorem recipeUpdateEndpoint_none (db : DB) (u : Nat) (pk : Nat)
    (vd : RecipeUpdateData) (h : recipeGetObject db u pk = none) :
    recipeUpdateEndpoint db u pk vd = none := by
  unfold recipeUpdateEndpoint
  rw [h]

theorem recipeDestroy_none (db : DB) (u : Nat) (pk : Nat)
    (h : recipeGetObject db u pk = none) : recipeDestroy db u pk = none := by
  unfold recipeDestroy
  rw [h]

theorem tagUpdateEndpoint_none (db : DB) (u : Nat) (pk : Nat)
    (vd : TagUpdateData) (h : tagGetObject db u pk = none) :
    tagUpdateEndpoint db u pk vd = none := by
  unfold tagUpdateEndpoint
  rw [h]

theorem tagDestroy_none (db : DB) (u : Nat) (pk : Nat)
    (h : tagGetObject db u pk = none) : tagDestroy db u pk = none := by
  unfold tagDestroy
  rw [h]

theorem ingredientUpdateEndpoint_none (db : DB) (u : Nat) (pk : Nat)
    (vd : IngredientUpdateData) (h : ingredientGetObject db u pk = none) :
    ingredientUpdateEndpoint db u pk vd = none := by
  unfold ingredientUpdateEndpoint
  rw [h]

theorem ingredientDestroy_none (db : DB) (u : Nat) (pk : Nat)
    (h : ingredientGetObject db u pk = none) : ingredientDestroy db u pk = none := by
  unfold ingredientDestroy
  rw [h]

theorem mem_recipeTagReps_name (table : List Tag) (tids : List Nat) (n : String) :
    n ∈ (recipeTagReps table tids).map TagRep.name ↔
      ∃ tid, tid ∈ tids ∧ ∃ t, t ∈ table ∧
        table.find? (fun x => x.id == tid) = some t ∧ t.name = n := by
  unfold recipeTagReps
  constructor
  · intro hm
    rcases List.mem_map.1 hm with ⟨rep, hrep, hname⟩
    rcases List.mem_filterMap.1 hrep with ⟨tid, htid, hf⟩
    rcases Option.map_eq_some'.1 hf with ⟨t, hft, hrepeq⟩
    refine ⟨tid, htid, t, List.mem_of_find?_eq_some hft, hft, ?_⟩
    rw [← hname, ← hrepeq]
  · rintro ⟨tid, htid, t, _, hft, hname⟩
    refine List.mem_map.2 ⟨⟨t.id, t.name⟩, List.mem_filterMap.2 ⟨tid, htid, ?_⟩, hname⟩
    rw [hft]
    rfl

theorem mem_recipeIngredientReps_name (table : List Ingredient) (tids : List Nat)
    (n : String) :
    n ∈ (recipeIngredientReps table tids).map IngredientRep.name ↔
      ∃ tid, tid ∈ tids ∧ ∃ t, t ∈ table ∧
        table.find? (fun x => x.id == tid) = some t ∧ t.name = n := by
  unfold recipeIngredientReps
  constructor
  · intro hm
    rcases List.mem_map.1 hm with ⟨rep, hrep, hname⟩
    rcases List.mem_filterMap.1 hrep with ⟨tid, htid, hf⟩
    rcases Option.map_eq_some'.1 hf with ⟨t, hft, hrepeq⟩
    refine ⟨tid, htid, t, List.mem_of_find?_eq_some hft, hft, ?_⟩
    rw [← hname, ← hrepeq]
  · rintro ⟨tid, htid, t, _, hft, hname⟩
    refine List.mem_map.2
      ⟨⟨t.id, t.name⟩, List.mem_filterMap.2 ⟨tid, htid, ?_⟩, hname⟩
    rw [hft]
    rfl

theorem resolve_tag_names (db : DB) (u : Nat) (ts : List TagPayload) (r : Recipe)
    (h : TagsWF db) (hr : r.tags = []) (n : String) :
    n ∈ (recipeTagReps (getOrCreateTags db u ts r).2.tags
          (getOrCreateTags db u ts r).1.tags).map TagRep.name ↔
      ∃ p, p ∈ ts ∧ p.name = n := by
  rw [mem_recipeTagReps_name]
  constructor
  · rintro ⟨tid, htid, t, htm, hft, hname⟩
    rcases getOrCreateTags_sound u ts db r tid htid with h1 | ⟨t', htm', hid', _, p, hp, hn'⟩
    · rw [hr] at h1
      cases h1
    · have hwf := getOrCreateTags_wf u ts db r h
      have ht' : t = t' := by
        apply List.inj_on_of_nodup_map hwf.2 htm htm'
        have hb := List.find?_some hft
        rw [beq_iff_eq.1 hb, hid']
      refine ⟨p, hp, ?_⟩
      rw [← hname, ht', hn']
  · rintro ⟨p, hp, hpn⟩
    rcases getOrCreateTags_complete u ts db r p hp with ⟨t, htm, _, hnm, hidmem⟩
    have hwf := getOrCreateTags_wf u ts db r h
    refine ⟨t.id, hidmem, t, htm, ?_, by rw [hnm, hpn]⟩
    exact find_key_of_nodup Tag.id _ hwf.2 t htm

theorem resolve_ingredient_names (db : DB) (u : Nat) (ps : List IngredientPayload)
    (r : Recipe) (h : IngredientsWF db) (hr : r.ingredients = []) (n : String) :
    n ∈ (recipeIngredientReps (getOrCreateIngredients db u ps r).2.ingredients
          (getOrCreateIngredients db u ps r).1.ingredients).map IngredientRep.name ↔
      ∃ p, p ∈ ps ∧ p.name = n := by
  rw [mem_recipeIngredientReps_name]
  constructor
  · rintro ⟨tid, htid, t, htm, hft, hname⟩
    rcases getOrCreateIngredients_sound u ps db r tid htid with h1 | ⟨t', htm', hid', _, p, hp, hn'⟩
    · rw [hr] at h1
      cases h1
    · have hwf := getOrCreateIngredients_wf u ps db r h
      have ht' : t = t' := by
        apply List.inj_on_of_nodup_map hwf.2 htm htm'
        have hb := List.find?_some hft
        rw [beq_iff_eq.1 hb, hid']
      refine ⟨p, hp, ?_⟩
      rw [← hname, ht', hn']
  · rintro ⟨p, hp, hpn⟩
    rcases getOrCreateIngredients_complete u ps db r p hp with ⟨t, htm, _, hnm, hidmem⟩
    have hwf := getOrCreateIngredients_wf u ps db r h
    refine ⟨t.id, hidmem, t, htm, ?_, by rw [hnm, hpn]⟩
    exact find_key_of_nodup Ingredient.id _ hwf.2 t htm

theorem recipeSerializerCreate_title (db : DB) (u : Nat) (vd : RecipeCreateData) :
    (recipeSerializerCreate db u vd).1.title = vd.title := by
  simp only [recipeSerializerCreate]
  rw [getOrCreateIngredients_fst_title, getOrCreateTags_fst_title]

theorem recipeSerializerCreate_time (db : DB) (u : Nat) (vd : RecipeCreateData) :
    (recipeSerializerCreate db u vd).1.time_minutes = vd.time_minutes := by
  simp only [recipeSerializerCreate]
  rw [getOrCreateIngredients_fst_time, getOrCreateTags_fst_time]

theorem recipeSerializerCreate_price (db : DB) (u : Nat) (vd : RecipeCreateData) :
    (recipeSerializerCreate db u vd).1.price = vd.price := by
  simp only [recipeSerializerCreate]
  rw [getOrCreateIngredients_fst_price, getOrCreateTags_fst_price]

theorem recipeSerializerCreate_link (db : DB) (u : Nat) (vd : RecipeCreateData) :
    (recipeSerializerCreate db u vd).1.link = vd.link.getD "" := by
  simp only [recipeSerializerCreate]
  rw [getOrCreateIngredients_fst_link, getOrCreateTags_fst_link]

theorem recipeSerializerCreate_descr (db : DB) (u : Nat) (vd : RecipeCreateData) :
    (recipeSerializerCreate db u vd).1.description = vd.description.getD "" := by
  simp only [recipeSerializerCreate]
  rw [getOrCreateIngredients_fst_descr, getOrCreateTags_fst_descr]

theorem recipeSerializerCreate_user (db : DB) (u : Nat) (vd : RecipeCreateData) :
    (recipeSerializerCreate db u vd).1.user = u := by
  simp only [recipeSerializerCreate]
  rw [getOrCreateIngredients_fst_user, getOrCreateTags_fst_user]

theorem recipeSerializerCreate_id (db : DB) (u : Nat) (vd : RecipeCreateData) :
    (recipeSerializerCreate db u vd).1.id = db.nextRecipeId := by
  simp only [recipeSerializerCreate]
  rw [getOrCreateIngredients_fst_id, getOrCreateTags_fst_id]

theorem recipeSerializerCreate_tag_names (db : DB) (u : Nat) (vd : RecipeCreateData)
    (h : TagsWF db) (n : String) :
    (n ∈ (recipeTagReps (recipeSerializerCreate db u vd).2.tags
        (recipeSerializerCreate db u vd).1.tags).map TagRep.name) ↔
      ∃ p, p ∈ vd.tags.getD [] ∧ p.name = n := by
  simp only [recipeSerializerCreate]
  rw [getOrCreateIngredients_fst_tags, getOrCreateIngredients_db_tags]
  exact resolve_tag_names { db with nextRecipeId := db.nextRecipeId + 1 } u
    (vd.tags.getD [])
    { id := db.nextRecipeId, title := vd.title, time_minutes := vd.time_minutes,
      price := vd.price, link := vd.link.getD "",
      description := vd.description.getD "", user := u, tags := [],
      ingredients := [] } h rfl n

theorem recipeSerializerCreate_ingredient_names (db : DB) (u : Nat)
    (vd : RecipeCreateData) (h : IngredientsWF db) (n : String) :
    (n ∈ (recipeIngredientReps (recipeSerializerCreate db u vd).2.ingredients
        (recipeSerializerCreate db u vd).1.ingredients).map IngredientRep.name) ↔
      ∃ p, p ∈ vd.ingredients.getD [] ∧ p.name = n := by
  simp only [recipeSerializerCreate]
  exact resolve_ingredient_names
    (getOrCreateTags { db with nextRecipeId := db.nextRecipeId + 1 } u
      (vd.tags.getD [])
      { id := db.nextRecipeId, title := vd.title, time_minutes := vd.time_minutes,
        price := vd.price, link := vd.link.getD "",
        description := vd.description.getD "", user := u, tags := [],
        ingredients := [] }).2 u (vd.ingredients.getD [])
    (getOrCreateTags { db with nextRecipeId := db.nextRecipeId + 1 } u
      (vd.tags.getD [])
      { id := db.nextRecipeId, title := vd.title, time_minutes := vd.time_minutes,
        price := vd.price, link := vd.link.getD "",
        description := vd.description.getD "", user := u, tags := [],
        ingredients := [] }).1
    (getOrCreateTags_ing_wf u (vd.tags.getD []) _ _ h)
    (getOrCreateTags_fst_ingredients _ u _ _) n

theorem resolveTags_set (db : DB) (u : Nat) (ts : List TagPayload) (r : Recipe)
    (hr : r.tags = []) :
    (∀ tid, tid ∈ (getOrCreateTags db u ts r).1.tags →
      ∃ t, t ∈ (getOrCreateTags db u ts r).2.tags ∧ t.id = tid ∧
        t.user = u ∧ ∃ p ∈ ts, t.name = p.name) ∧
    (∀ p ∈ ts, ∃ t, t ∈ (getOrCreateTags db u ts r).2.tags ∧ t.user = u ∧
      t.name = p.name ∧ t.id ∈ (getOrCreateTags db u ts r).1.tags) := by
  constructor
  · intro tid htid
    rcases getOrCreateTags_sound u ts db r tid htid with h1 | hx
    · rw [hr] at h1
      cases h1
    · exact hx
  · exact fun p hp => getOrCreateTags_complete u ts db r p hp

theorem resolveIngs_set (db : DB) (u : Nat) (ps : List IngredientPayload)
    (r : Recipe) (hr : r.ingredients = []) :
    (∀ tid, tid ∈ (getOrCreateIngredients db u ps r).1.ingredients →
      ∃ t, t ∈ (getOrCreateIngredients db u ps r).2.ingredients ∧ t.id = tid ∧
        t.user = u ∧ ∃ p ∈ ps, t.name = p.name) ∧
    (∀ p ∈ ps, ∃ t, t ∈ (getOrCreateIngredients db u ps r).2.ingredients ∧
      t.user = u ∧ t.name = p.name ∧
      t.id ∈ (getOrCreateIngredients db u ps r).1.ingredients) := by
  constructor
  · intro tid htid
    rcases getOrCreateIngredients_sound u ps db r tid htid with h1 | hx
    · rw [hr] at h1
      cases h1
    · exact hx
  · exact fun p hp => getOrCreateIngredients_complete u ps db r p hp

theorem recipeSerializerUpdate_tags_some (db : DB) (u : Nat) (inst : Recipe)
    (vd : RecipeUpdateData) (ts : List TagPayload) (h : vd.tags = some ts) :
    (recipeSerializerUpdate db u inst vd).1.tags =
      (getOrCreateTags db u ts { inst with tags := [] }).1.tags := by
  rcases hi : vd.ingredients with _ | ps <;>
    simp only [recipeSerializerUpdate, h, hi]
  rw [getOrCreateIngredients_fst_tags]

theorem recipeSerializerUpdate_db_tags_some (db : DB) (u : Nat) (inst : Recipe)
    (vd : RecipeUpdateData) (ts : List TagPayload) (h : vd.tags = some ts) :
    (recipeSerializerUpdate db u inst vd).2.tags =
      (getOrCreateTags db u ts { inst with tags := [] }).2.tags := by
  rcases hi : vd.ingredients with _ | ps <;>
    simp only [recipeSerializerUpdate, saveRecipe, h, hi]
  rw [getOrCreateIngredients_db_tags]

theorem recipeSerializerUpdate_tags_none (db : DB) (u : Nat) (inst : Recipe)
    (vd : RecipeUpdateData) (h : vd.tags = none) :
    (recipeSerializerUpdate db u inst vd).1.tags = inst.tags := by
  rcases hi : vd.ingredients with _ | ps <;>
    simp only [recipeSerializerUpdate, h, hi]
  rw [getOrCreateIngredients_fst_tags]

theorem recipeSerializerUpdate_ings_structure (db : DB) (u : Nat) (inst : Recipe)
    (vd : RecipeUpdateData) (ps : List IngredientPayload)
    (hi : vd.ingredients = some ps) :
    ∃ S T, T.ingredients = ([] : List Nat) ∧
      (recipeSerializerUpdate db u inst vd).1.ingredients =
        (getOrCreateIngredients S u ps T).1.ingredients ∧
      (recipeSerializerUpdate db u inst vd).2.ingredients =
        (getOrCreateIngredients S u ps T).2.ingredients := by
  rcases ht : vd.tags with _ | ts
  · refine ⟨db, { inst with ingredients := [] }, rfl, ?_, ?_⟩ <;>
      simp only [recipeSerializerUpdate, saveRecipe, ht, hi]
  · refine ⟨(getOrCreateTags db u ts { inst with tags := [] }).2,
      { (getOrCreateTags db u ts { inst with tags := [] }).1 with
        ingredients := [] }, rfl, ?_, ?_⟩ <;>
      simp only [recipeSerializerUpdate, saveRecipe, ht, hi]

theorem recipeSerializerUpdate_ings_none (db : DB) (u : Nat) (inst : Recipe)
    (vd : RecipeUpdateData) (hi : vd.ingredients = none) :
    (recipeSerializerUpdate db u inst vd).1.ingredients = inst.ingredients := by
  rcases ht : vd.tags with _ | ts <;>
    simp only [recipeSerializerUpdate, ht, hi]
  rw [getOrCreateTags_fst_ingredients]

theorem recipeSerializerUpdate_user (db : DB) (u : Nat) (inst : Recipe)
    (vd : RecipeUpdateData) :
    (recipeSerializerUpdate db u inst vd).1.user = inst.user := by
  rcases ht : vd.tags with _ | ts <;> rcases hi : vd.ingredients with _ | ps <;>
    simp only [recipeSerializerUpdate, ht, hi]
  · rw [getOrCreateIngredients_fst_user]
  · rw [getOrCreateTags_fst_user]
  · rw [getOrCreateIngredients_fst_user, getOrCreateTags_fst_user]

theorem recipeSerializerUpdate_id (db : DB) (u : Nat) (inst : Recipe)
    (vd : RecipeUpdateData) :
    (recipeSerializerUpdate db u inst vd).1.id = inst.id := by
  rcases ht : vd.tags with _ | ts <;> rcases hi : vd.ingredients with _ | ps <;>
    simp only [recipeSerializerUpdate, ht, hi]
  · rw [getOrCreateIngredients_fst_id]
  · rw [getOrCreateTags_fst_id]
  · rw [getOrCreateIngredients_fst_id, getOrCreateTags_fst_id]

/-! ### Claim theorems -/

/-- C1: for every authenticated user, the Recipe/Tag/Ingredient list
querysets and the detail lookups only ever yield rows owned by that
user, for every stored dataset. -/
theorem C1_owner_scoping (db : DB) (u : Nat) :
    (∀ r : Recipe, r ∈ recipeGetQueryset db u → r.user = u) ∧
    (∀ t : Tag, t ∈ tagGetQueryset db u → t.user = u) ∧
    (∀ t : Ingredient, t ∈ ingredientGetQueryset db u → t.user = u) ∧
    (∀ pk r, recipeGetObject db u pk = some r → r.user = u) ∧
    (∀ pk t, tagGetObject db u pk = some t → t.user = u) ∧
    (∀ pk t, ingredientGetObject db u pk = some t → t.user = u) := by
  refine ⟨?_, ?_, ?_, ?_, ?_, ?_⟩
  · intro r h
    exact ((mem_recipeGetQueryset db u r).1 h).2
  · intro t h
    exact ((mem_tagGetQueryset db u t).1 h).2
  · intro t h
    exact ((mem_ingredientGetQueryset db u t).1 h).2
  · intro pk r h
    exact (recipeGetObject_some db u pk r h).2.1
  · intro pk t h
    exact (tagGetObject_some db u pk t h).2.1
  · intro pk t h
    exact (ingredientGetObject_some db u pk t h).2.1

/-- Witness dataset: user 1 owns recipe 7, tag 3, ingredient 4;
user 2 owns recipe 8, tag 5, ingredient 6. -/
def dbW : DB :=
  { recipes := [⟨7, "Curry", 30, "5.00", "", "", 1, [3], [4]⟩,
                ⟨8, "Soup", 10, "2.00", "", "", 2, [5], [6]⟩],
    tags := [⟨3, "Indian", 1⟩, ⟨5, "Fast", 2⟩],
    ingredients := [⟨4, "Salt", 1⟩, ⟨6, "Pepper", 2⟩],
    nextRecipeId := 9, nextTagId := 9, nextIngredientId := 9 }

/-- C1 witness: the concrete dataset `dbW` instantiates the
owner-scoping theorem. -/
theorem C1_owner_scoping_witness :
    (⟨7, "Curry", 30, "5.00", "", "", 1, [3], [4]⟩ : Recipe).user = 1 ∧
    (⟨3, "Indian", 1⟩ : Tag).user = 1 :=
  ⟨(C1_owner_scoping dbW 1).1 _ (by decide),
   (C1_owner_scoping dbW 1).2.1 _ (by decide)⟩

/-- C2: a recipe update with the `tags`/`ingredients` key present
replaces the association set by the resolved payload set (sound and
complete), an explicitly empty list clears all associations, and an
absent key leaves associations untouched. -/
theorem C2_update_replaces_associations (db : DB) (u : Nat) (inst : Recipe)
    (vd : RecipeUpdateData) :
    (∀ ts, vd.tags = some ts →
      (∀ tid, tid ∈ (recipeSerializerUpdate db u inst vd).1.tags →
        ∃ t, t ∈ (recipeSerializerUpdate db u inst vd).2.tags ∧ t.id = tid ∧
          t.user = u ∧ ∃ p ∈ ts, t.name = p.name) ∧
      (∀ p ∈ ts, ∃ t, t ∈ (recipeSerializerUpdate db u inst vd).2.tags ∧
        t.user = u ∧ t.name = p.name ∧
        t.id ∈ (recipeSerializerUpdate db u inst vd).1.tags)) ∧
    (vd.tags = some [] → (recipeSerializerUpdate db u inst vd).1.tags = []) ∧
    (vd.tags = none → (recipeSerializerUpdate db u inst vd).1.tags = inst.tags) ∧
    (∀ ps, vd.ingredients = some ps →
      (∀ tid, tid ∈ (recipeSerializerUpdate db u inst vd).1.ingredients →
        ∃ t, t ∈ (recipeSerializerUpdate db u inst vd).2.ingredients ∧ t.id = tid ∧
          t.user = u ∧ ∃ p ∈ ps, t.name = p.name) ∧
      (∀ p ∈ ps, ∃ t, t ∈ (recipeSerializerUpdate db u inst vd).2.ingredients ∧
        t.user = u ∧ t.name = p.name ∧
        t.id ∈ (recipeSerializerUpdate db u inst vd).1.ingredients)) ∧
    (vd.ingredients = some [] →
      (recipeSerializerUpdate db u inst vd).1.ingredients = []) ∧
    (vd.ingredients = none →
      (recipeSerializerUpdate db u inst vd).1.ingredients = inst.ingredients) := by
  refine ⟨?_, ?_, ?_, ?_, ?_, ?_⟩
  · intro ts ht
    have hset := resolveTags_set db u ts { inst with tags := [] } rfl
    constructor
    · intro tid htid
      rw [recipeSerializerUpdate_tags_some db u inst vd ts ht] at htid
      rcases hset.1 tid htid with ⟨t, htm, hrest⟩
      refine ⟨t, ?_, hrest⟩
      rw [recipeSerializerUpdate_db_tags_some db u inst vd ts ht]
      exact htm
    · intro p hp
      rcases hset.2 p hp with ⟨t, htm, hu, hn, hmem⟩
      refine ⟨t, ?_, hu, hn, ?_⟩
      · rw [recipeSerializerUpdate_db_tags_some db u inst vd ts ht]
        exact htm
      · rw [recipeSerializerUpdate_tags_some db u inst vd ts ht]
        exact hmem
  · intro ht
    rw [recipeSerializerUpdate_tags_some db u inst vd [] ht]
    exact rfl
  · exact recipeSerializerUpdate_tags_none db u inst vd
  · intro ps hi
    rcases recipeSerializerUpdate_ings_structure db u inst vd ps hi with
      ⟨S, T, hT, e1, e2⟩
    have hset := resolveIngs_set S u ps T hT
    constructor
    · intro tid htid
      rw [e1] at htid
      rcases hset.1 tid htid with ⟨t, htm, hrest⟩
      refine ⟨t, ?_, hrest⟩
      rw [e2]
      exact htm
    · intro p hp
      rcases hset.2 p hp with ⟨t, htm, hu, hn, hmem⟩
      refine ⟨t, ?_, hu, hn, ?_⟩
      · rw [e2]
        exact htm
      · rw [e1]
        exact hmem
  · intro hi
    rcases recipeSerializerUpdate_ings_structure db u inst vd [] hi with
      ⟨S, T, hT, e1, _⟩
    rw [e1]
    exact hT ▸ rfl
  · exact recipeSerializerUpdate_ings_none db u inst vd

/-- C2 witness: patching tags to `[Lunch]` on a recipe that had tag
`Breakfast` attaches a Lunch tag owned by the requester. -/
theorem C2_update_replaces_associations_witness :
    ∃ t, t ∈ (recipeSerializerUpdate dbW 1
        ⟨7, "Curry", 30, "5.00", "", "", 1, [3], [4]⟩
        ⟨none, none, none, none, none, some [⟨"Lunch"⟩], none⟩).2.tags ∧
      t.user = 1 ∧ t.name = "Lunch" ∧
      t.id ∈ (recipeSerializerUpdate dbW 1
        ⟨7, "Curry", 30, "5.00", "", "", 1, [3], [4]⟩
        ⟨none, none, none, none, none, some [⟨"Lunch"⟩], none⟩).1.tags :=
  ((C2_update_replaces_associations dbW 1 _ _).1 [⟨"Lunch"⟩] rfl).2
    ⟨"Lunch"⟩ (by decide)

/-- C3: nested tag/ingredient resolution is get-or-create scoped to
the requesting user — an existing (owner, name) row is reused with
the row count unchanged, a missing one is created exactly once, owned
by the requesting user, and attached; recipe create and update never
duplicate an existing (owner, name) row. -/
theorem C3_get_or_create_reuse (db : DB) (u : Nat) (ts : List TagPayload)
    (ps : List IngredientPayload) (r : Recipe) (n : String) :
    (1 ≤ countTag db u n →
      countTag (getOrCreateTags db u ts r).2 u n = countTag db u n) ∧
    (countTag db u n = 0 → (∃ p ∈ ts, p.name = n) →
      countTag (getOrCreateTags db u ts r).2 u n = 1) ∧
    (∀ p ∈ ts, ∃ t, t ∈ (getOrCreateTags db u ts r).2.tags ∧ t.user = u ∧
      t.name = p.name ∧ t.id ∈ (getOrCreateTags db u ts r).1.tags) ∧
    (1 ≤ countIngredient db u n →
      countIngredient (getOrCreateIngredients db u ps r).2 u n =
        countIngredient db u n) ∧
    (countIngredient db u n = 0 → (∃ p ∈ ps, p.name = n) →
      countIngredient (getOrCreateIngredients db u ps r).2 u n = 1) ∧
    (∀ p ∈ ps, ∃ t, t ∈ (getOrCreateIngredients db u ps r).2.ingredients ∧
      t.user = u ∧ t.name = p.name ∧
      t.id ∈ (getOrCreateIngredients db u ps r).1.ingredients) ∧
    (∀ vd : RecipeCreateData, 1 ≤ countTag db u n →
      countTag (recipeSerializerCreate db u vd).2 u n = countTag db u n) ∧
    (∀ vd : RecipeCreateData, 1 ≤ countIngredient db u n →
      countIngredient (recipeSerializerCreate db u vd).2 u n =
        countIngredient db u n) ∧
    (∀ (inst : Recipe) (vd : RecipeUpdateData), 1 ≤ countTag db u n →
      countTag (recipeSerializerUpdate db u inst vd).2 u n = countTag db u n) ∧
    (∀ (inst : Recipe) (vd : RecipeUpdateData), 1 ≤ countIngredient db u n →
      countIngredient (recipeSerializerUpdate db u inst vd).2 u n =
        countIngredient db u n) := by
  refine ⟨getOrCreateTags_count_ge u ts db r n,
    getOrCreateTags_count_new u ts db r n,
    getOrCreateTags_complete u ts db r,
    getOrCreateIngredients_count_ge u ps db r n,
    getOrCreateIngredients_count_new u ps db r n,
    getOrCreateIngredients_complete u ps db r,
    fun vd h => recipeSerializerCreate_countTag db u vd n h,
    fun vd h => recipeSerializerCreate_countIngredient db u vd n h,
    fun inst vd h => recipeSerializerUpdate_countTag db u inst vd n h,
    fun inst vd h => recipeSerializerUpdate_countIngredient db u inst vd n h⟩

/-- C3 witness: creating a recipe with nested tag `Indian` when user 1
already owns a tag named `Indian` leaves that row count at one, and a
fresh name `Thai` is created exactly once. -/
theorem C3_get_or_create_reuse_witness :
    countTag (recipeSerializerCreate dbW 1
      ⟨"New", 5, "1.00", none, none, some [⟨"Indian"⟩], none⟩).2 1 "Indian" =
      countTag dbW 1 "Indian" ∧
    countTag (getOrCreateTags dbW 1 [⟨"Thai"⟩]
      ⟨7, "Curry", 30, "5.00", "", "", 1, [3], [4]⟩).2 1 "Thai" = 1 :=
  ⟨(C3_get_or_create_reuse dbW 1 [⟨"Indian"⟩] [] ⟨7, "Curry", 30, "5.00", "", "",
      1, [3], [4]⟩ "Indian").2.2.2.2.2.2.1 _ (by decide),
   (C3_get_or_create_reuse dbW 1 [⟨"Thai"⟩] [] ⟨7, "Curry", 30, "5.00", "", "",
      1, [3], [4]⟩ "Thai").2.1 (by decide) ⟨⟨"Thai"⟩, by decide⟩⟩

/-- C4: a retrieve, update or delete issued by a different user on an
owned row resolves as 404 (`none`), leaving the row still retrievable
by its owner. -/
theorem C4_cross_user_not_found (db : DB) (u1 u2 : Nat) (hne : u1 ≠ u2)
    (hnr : (db.recipes.map Recipe.id).Nodup)
    (hnt : (db.tags.map Tag.id).Nodup)
    (hni : (db.ingredients.map Ingredient.id).Nodup) :
    (∀ r ∈ db.recipes, r.user = u1 →
      recipeGetObject db u2 r.id = none ∧
      (∀ vd, recipeUpdateEndpoint db u2 r.id vd = none) ∧
      recipeDestroy db u2 r.id = none ∧
      recipeGetObject db u1 r.id = some r) ∧
    (∀ t ∈ db.tags, t.user = u1 →
      tagGetObject db u2 t.id = none ∧
      (∀ vd, tagUpdateEndpoint db u2 t.id vd = none) ∧
      tagDestroy db u2 t.id = none ∧
      tagGetObject db u1 t.id = some t) ∧
    (∀ t ∈ db.ingredients, t.user = u1 →
      ingredientGetObject db u2 t.id = none ∧
      (∀ vd, ingredientUpdateEndpoint db u2 t.id vd = none) ∧
      ingredientDestroy db u2 t.id = none ∧
      ingredientGetObject db u1 t.id = some t) := by
  refine ⟨?_, ?_, ?_⟩
  · intro r hr hu1
    have hno : recipeGetObject db u2 r.id = none :=
      recipeGetObject_none_of_other db u2 r hnr hr
        (fun he => hne (hu1.symm.trans he))
    refine ⟨hno, fun vd => recipeUpdateEndpoint_none db u2 r.id vd hno,
      recipeDestroy_none db u2 r.id hno, ?_⟩
    rw [← hu1]
    exact recipeGetObject_owner db r hnr hr
  · intro t ht hu1
    have hno : tagGetObject db u2 t.id = none :=
      tagGetObject_none_of_other db u2 t hnt ht
        (fun he => hne (hu1.symm.trans he))
    refine ⟨hno, fun vd => tagUpdateEndpoint_none db u2 t.id vd hno,
      tagDestroy_none db u2 t.id hno, ?_⟩
    rw [← hu1]
    exact tagGetObject_owner db t hnt ht
  · intro t ht hu1
    have hno : ingredientGetObject db u2 t.id = none :=
      ingredientGetObject_none_of_other db u2 t hni ht
        (fun he => hne (hu1.symm.trans he))
    refine ⟨hno, fun vd => ingredientUpdateEndpoint_none db u2 t.id vd hno,
      ingredientDestroy_none db u2 t.id hno, ?_⟩
    rw [← hu1]
    exact ingredientGetObject_owner db t hni ht

/-- C4 witness: user 2's delete of user 1's recipe 7 in `dbW` is a
404 and recipe 7 stays retrievable by user 1. -/
theorem C4_cross_user_not_found_witness :
    recipeDestroy dbW 2 7 = none ∧
    recipeGetObject dbW 1 7 =
      some ⟨7, "Curry", 30, "5.00", "", "", 1, [3], [4]⟩ := by
  have h := (C4_cross_user_not_found dbW 1 2 (by decide) (by decide) (by decide)
    (by decide)).1 ⟨7, "Curry", 30, "5.00", "", "", 1, [3], [4]⟩
    (by decide) rfl
  exact ⟨h.2.2.1, h.2.2.2⟩

/-- C5: ownership comes from the request context and is immutable —
creation stamps the requester as owner, a `user` key in any raw
payload is dropped by validation, and updates never change the stored
owner. -/
theorem C5_owner_immutable :
    (∀ (db : DB) (u : Nat) (vd : RecipeCreateData),
      (recipeSerializerCreate db u vd).1.user = u) ∧
    (∀ (db : DB) (u : Nat) (inst : Recipe) (vd : RecipeUpdateData),
      (recipeSerializerUpdate db u inst vd).1.user = inst.user) ∧
    (∀ (inst : Tag) (vd : TagUpdateData),
      (tagSerializerUpdate inst vd).user = inst.user) ∧
    (∀ (inst : Ingredient) (vd : IngredientUpdateData),
      (ingredientSerializerUpdate inst vd).user = inst.user) ∧
    (∀ (raw : RawRecipePayload) (v : Nat),
      validateRecipeCreate { raw with user := some v } = validateRecipeCreate raw) ∧
    (∀ (raw : RawRecipePayload) (v : Nat),
      validateRecipePatch { raw with user := some v } = validateRecipePatch raw) ∧
    (∀ (raw : RawTagPayload) (v : Nat),
      validateTagPatch { raw with user := some v } = validateTagPatch raw) ∧
    (∀ (raw : RawIngredientPayload) (v : Nat),
      validateIngredientPatch { raw with user := some v } =
        validateIngredientPatch raw) ∧
    (∀ (db : DB) (u : Nat) (n : String), (tagGetOrCreate db u n).1.user = u) ∧
    (∀ (db : DB) (u : Nat) (n : String),
      (ingredientGetOrCreate db u n).1.user = u) := by
  refine ⟨fun db u vd => recipeSerializerCreate_user db u vd,
    fun db u inst vd => recipeSerializerUpdate_user db u inst vd,
    fun inst vd => rfl, fun inst vd => rfl, ?_, ?_, ?_, ?_,
    fun db u n => tagGetOrCreate_user db u n,
    fun db u n => ingredientGetOrCreate_user db u n⟩
  · intro raw v
    rcases raw with ⟨i, us, t, m, p, l, d, tg, ig⟩
    cases t <;> cases m <;> cases p <;> rfl
  · intro raw v
    rcases raw with ⟨i, us, t, m, p, l, d, tg, ig⟩
    rfl
  · intro raw v
    rcases raw with ⟨i, us, nm⟩
    rfl
  · intro raw v
    rcases raw with ⟨i, us, nm⟩
    rfl

/-- C6: serializing the recipe produced by a create reproduces every
scalar field of the validated representation verbatim (optional
scalars default to the empty string) and reproduces the tag and
ingredient name sets exactly. -/
theorem C6_round_trip (db : DB) (u : Nat) (vd : RecipeCreateData)
    (h1 : TagsWF db) (h2 : IngredientsWF db) :
    (serializeRecipeDetail (recipeSerializerCreate db u vd).2
      (recipeSerializerCreate db u vd).1).title = vd.title ∧
    (serializeRecipeDetail (recipeSerializerCreate db u vd).2
      (recipeSerializerCreate db u vd).1).time_minutes = vd.time_minutes ∧
    (serializeRecipeDetail (recipeSerializerCreate db u vd).2
      (recipeSerializerCreate db u vd).1).price = vd.price ∧
    (serializeRecipeDetail (recipeSerializerCreate db u vd).2
      (recipeSerializerCreate db u vd).1).link = vd.link.getD "" ∧
    (serializeRecipeDetail (recipeSerializerCreate db u vd).2
      (recipeSerializerCreate db u vd).1).description = vd.description.getD "" ∧
    (∀ n, n ∈ ((serializeRecipeDetail (recipeSerializerCreate db u vd).2
        (recipeSerializerCreate db u vd).1).tags).map TagRep.name ↔
      ∃ p, p ∈ vd.tags.getD [] ∧ p.name = n) ∧
    (∀ n, n ∈ ((serializeRecipeDetail (recipeSerializerCreate db u vd).2
        (recipeSerializerCreate db u vd).1).ingredients).map IngredientRep.name ↔
      ∃ p, p ∈ vd.ingredients.getD [] ∧ p.name = n) := by
  refine ⟨recipeSerializerCreate_title db u vd,
    recipeSerializerCreate_time db u vd,
    recipeSerializerCreate_price db u vd,
    recipeSerializerCreate_link db u vd,
    recipeSerializerCreate_descr db u vd,
    fun n => recipeSerializerCreate_tag_names db u vd h1 n,
    fun n => recipeSerializerCreate_ingredient_names db u vd h2 n⟩

/-- C6 witness: a concrete create in `dbW` round-trips its scalar
fields and tag names. -/
theorem C6_round_trip_witness :
    (serializeRecipeDetail (recipeSerializerCreate dbW 1
        ⟨"Pasta", 12, "3.50", none, none, some [⟨"Italian"⟩], none⟩).2
      (recipeSerializerCreate dbW 1
        ⟨"Pasta", 12, "3.50", none, none, some [⟨"Italian"⟩], none⟩).1).title =
      "Pasta" ∧
    ("Italian" ∈ ((serializeRecipeDetail (recipeSerializerCreate dbW 1
        ⟨"Pasta", 12, "3.50", none, none, some [⟨"Italian"⟩], none⟩).2
      (recipeSerializerCreate dbW 1
        ⟨"Pasta", 12, "3.50", none, none, some [⟨"Italian"⟩],
          none⟩).1).tags).map TagRep.name ↔
      ∃ p, p ∈ [(⟨"Italian"⟩ : TagPayload)] ∧ p.name = "Italian") :=
  ⟨(C6_round_trip dbW 1 ⟨"Pasta", 12, "3.50", none, none, some [⟨"Italian"⟩],
      none⟩ (by decide) (by decide)).1,
   (C6_round_trip dbW 1 ⟨"Pasta", 12, "3.50", none, none, some [⟨"Italian"⟩],
      none⟩ (by decide) (by decide)).2.2.2.2.2.1 "Italian"⟩

/-- C7 counterexample: the tag viewset does not provide a retrieve
action — a detail GET is not among its supported actions, so the
claim that the detail endpoints support GET fails. -/
theorem C7_counterexample : ViewAction.retrieve ∉ tagViewSetActions := by
  decide

/-- C7 (amended): the tag and ingredient detail endpoints support
PATCH/PUT and DELETE with owner-scoped 404 behavior, but expose
neither a detail GET (no retrieve action) nor a direct create. -/
theorem C7_detail_ops_amended :
    (ViewAction.update ∈ tagViewSetActions ∧
     ViewAction.patchUpdate ∈ tagViewSetActions ∧
     ViewAction.destroy ∈ tagViewSetActions ∧
     ViewAction.list ∈ tagViewSetActions ∧
     ViewAction.retrieve ∉ tagViewSetActions ∧
     ViewAction.create ∉ tagViewSetActions) ∧
    (ViewAction.update ∈ ingredientViewSetActions ∧
     ViewAction.patchUpdate ∈ ingredientViewSetActions ∧
     ViewAction.destroy ∈ ingredientViewSetActions ∧
     ViewAction.list ∈ ingredientViewSetActions ∧
     ViewAction.retrieve ∉ ingredientViewSetActions ∧
     ViewAction.create ∉ ingredientViewSetActions) ∧
    (ViewAction.retrieve ∈ recipeViewSetActions ∧
     ViewAction.create ∈ recipeViewSetActions) ∧
    (∀ (db : DB) (u pk : Nat) (vd : TagUpdateData),
      tagGetObject db u pk = none →
        tagUpdateEndpoint db u pk vd = none ∧ tagDestroy db u pk = none) ∧
    (∀ (db : DB) (u pk : Nat) (vd : IngredientUpdateData),
      ingredientGetObject db u pk = none →
        ingredientUpdateEndpoint db u pk vd = none ∧
        ingredientDestroy db u pk = none) ∧
    (∀ (db : DB) (u pk : Nat) (t : Tag), tagGetObject db u pk = some t →
      t ∈ db.tags ∧ t.user = u ∧ t.id = pk) ∧
    (∀ (db : DB) (u pk : Nat) (t : Ingredient),
      ingredientGetObject db u pk = some t →
      t ∈ db.ingredients ∧ t.user = u ∧ t.id = pk) := by
  refine ⟨by decide, by decide, by decide, ?_, ?_, ?_, ?_⟩
  · intro db u pk vd h
    exact ⟨tagUpdateEndpoint_none db u pk vd h, tagDestroy_none db u pk h⟩
  · intro db u pk vd h
    exact ⟨ingredientUpdateEndpoint_none db u pk vd h,
      ingredientDestroy_none db u pk h⟩
  · intro db u pk t h
    exact tagGetObject_some db u pk t h
  · intro db u pk t h
    exact ingredientGetObject_some db u pk t h

/-- C7 witness: a detail request for an absent tag id in `dbW` is a
404 and so are its PATCH and DELETE. -/
theorem C7_detail_ops_amended_witness :
    tagUpdateEndpoint dbW 1 99 ⟨some "x"⟩ = none ∧ tagDestroy dbW 1 99 = none :=
  (C7_detail_ops_amended).2.2.2.1 dbW 1 99 ⟨some "x"⟩ (by decide)

/-- C8: the recipe list is the requester's recipes in descending id
order and uses the summary serializer (no `description`); every other
action uses the detail serializer, which adds `description`. -/
theorem C8_list_order_and_serializer (db : DB) (u : Nat) :
    (∀ r, r ∈ recipeGetQueryset db u ↔ r ∈ db.recipes ∧ r.user = u) ∧
    List.Pairwise (fun a b : Recipe => b.id ≤ a.id) (recipeGetQueryset db u) ∧
    recipeSerializerClassFor ViewAction.list = SerializerKind.summary ∧
    (∀ a, a ≠ ViewAction.list →
      recipeSerializerClassFor a = SerializerKind.detail) ∧
    "description" ∉ recipeSerializerFields ∧
    "description" ∈ recipeDetailSerializerFields ∧
    (∀ s ∈ recipeSerializerFields, s ∈ recipeDetailSerializerFields) := by
  refine ⟨fun r => mem_recipeGetQueryset db u r, ?_, rfl, ?_, by decide,
    by decide, by decide⟩
  · exact List.sorted_insertionSort recipeOrd _
  · intro a ha
    unfold recipeSerializerClassFor
    rw [if_neg ha]

/-- C8 witness: in `dbW` user 1's queryset is exactly recipe 7 and
the retrieve action uses the detail serializer. -/
theorem C8_list_order_and_serializer_witness :
    ((⟨7, "Curry", 30, "5.00", "", "", 1, [3], [4]⟩ : Recipe) ∈
      recipeGetQueryset dbW 1 ↔
      (⟨7, "Curry", 30, "5.00", "", "", 1, [3], [4]⟩ : Recipe) ∈ dbW.recipes ∧
        (⟨7, "Curry", 30, "5.00", "", "", 1, [3], [4]⟩ : Recipe).user = 1) ∧
    recipeSerializerClassFor ViewAction.retrieve = SerializerKind.detail :=
  ⟨(C8_list_order_and_serializer dbW 1).1 _,
   (C8_list_order_and_serializer dbW 1).2.2.2.1 ViewAction.retrieve (by decide)⟩

theorem recipeSerializerCreate_tags_nil (db : DB) (u : Nat)
    (vd : RecipeCreateData) (h : vd.tags.getD [] = []) :
    (recipeSerializerCreate db u vd).1.tags = [] := by
  simp only [recipeSerializerCreate]
  rw [h, getOrCreateIngredients_fst_tags]
  exact rfl

theorem recipeSerializerCreate_ings_nil (db : DB) (u : Nat)
    (vd : RecipeCreateData) (h : vd.ingredients.getD [] = []) :
    (recipeSerializerCreate db u vd).1.ingredients = [] := by
  simp only [recipeSerializerCreate]
  rw [h]
  simp only [getOrCreateIngredients]
  rw [getOrCreateTags_fst_ingredients]

/-- C9: the read-only `id` never reaches validated data on any
resource — a payload-supplied `id` changes nothing about validation,
and a stored entity's id is the auto-increment counter on create,
respectively the instance's existing id on update load. -/
theorem C9_read_only_id :
    (∀ (raw : RawRecipePayload) (v : Nat),
      validateRecipeCreate { raw with id := some v } = validateRecipeCreate raw) ∧
    (∀ (raw : RawRecipePayload) (v : Nat),
      validateRecipePatch { raw with id := some v } = validateRecipePatch raw) ∧
    (∀ (raw : RawTagPayload) (v : Nat),
      validateTagPatch { raw with id := some v } = validateTagPatch raw) ∧
    (∀ (raw : RawIngredientPayload) (v : Nat),
      validateIngredientPatch { raw with id := some v } =
        validateIngredientPatch raw) ∧
    (∀ (it : RawTagItem) (v : Nat),
      validateTagItem { it with id := some v } = validateTagItem it) ∧
    (∀ (it : RawIngredientItem) (v : Nat),
      validateIngredientItem { it with id := some v } =
        validateIngredientItem it) ∧
    (∀ (db : DB) (u : Nat) (vd : RecipeCreateData),
      (recipeSerializerCreate db u vd).1.id = db.nextRecipeId) ∧
    (∀ (db : DB) (u : Nat) (inst : Recipe) (vd : RecipeUpdateData),
      (recipeSerializerUpdate db u inst vd).1.id = inst.id) ∧
    (∀ (inst : Tag) (vd : TagUpdateData),
      (tagSerializerUpdate inst vd).id = inst.id) ∧
    (∀ (inst : Ingredient) (vd : IngredientUpdateData),
      (ingredientSerializerUpdate inst vd).id = inst.id) := by
  refine ⟨?_, ?_, ?_, ?_, ?_, ?_,
    fun db u vd => recipeSerializerCreate_id db u vd,
    fun db u inst vd => recipeSerializerUpdate_id db u inst vd,
    fun inst vd => rfl, fun inst vd => rfl⟩
  · intro raw v
    rcases raw with ⟨i, us, t, m, p, l, d, tg, ig⟩
    cases t <;> cases m <;> cases p <;> rfl
  · intro raw v
    rcases raw with ⟨i, us, t, m, p, l, d, tg, ig⟩
    rfl
  · intro raw v
    rcases raw with ⟨i, us, nm⟩
    rfl
  · intro raw v
    rcases raw with ⟨i, us, nm⟩
    rfl
  · intro it v
    rcases it with ⟨i, nm⟩
    rfl
  · intro it v
    rcases it with ⟨i, nm⟩
    rfl

/-- C10: at create time an absent `tags`/`ingredients` key behaves
exactly like an empty list — the whole create result coincides, and
either form yields a recipe with no associations. -/
theorem C10_create_absent_eq_empty (db : DB) (u : Nat) (vd : RecipeCreateData) :
    recipeSerializerCreate db u { vd with tags := none, ingredients := none } =
      recipeSerializerCreate db u
        { vd with tags := some [], ingredients := some [] } ∧
    (vd.tags = none ∨ vd.tags = some [] →
      (recipeSerializerCreate db u vd).1.tags = []) ∧
    (vd.ingredients = none ∨ vd.ingredients = some [] →
      (recipeSerializerCreate db u vd).1.ingredients = []) := by
  refine ⟨rfl, ?_, ?_⟩
  · intro h
    refine recipeSerializerCreate_tags_nil db u vd ?_
    rcases h with h | h <;> rw [h] <;> rfl
  · intro h
    refine recipeSerializerCreate_ings_nil db u vd ?_
    rcases h with h | h <;> rw [h] <;> rfl

/-- C10 witness: a concrete create without nested keys has no
associated tags or ingredients. -/
theorem C10_create_absent_eq_empty_witness :
    (recipeSerializerCreate dbW 1
      ⟨"Plain", 3, "1.00", none, none, none, none⟩).1.tags = [] ∧
    (recipeSerializerCreate dbW 1
      ⟨"Plain", 3, "1.00", none, none, none, none⟩).1.ingredients = [] :=
  ⟨(C10_create_absent_eq_empty dbW 1
      ⟨"Plain", 3, "1.00", none, none, none, none⟩).2.1 (Or.inl rfl),
   (C10_create_absent_eq_empty dbW 1
      ⟨"Plain", 3, "1.00", none, none, none, none⟩).2.2 (Or.inl rfl)⟩
